import Mathlib

/-!
# Project-BLINK dashboard (`app.js`)

A shallow embedding of the dashboard script: the counter animator, the tab
controller, the traffic-light cycler, the live-metric jitterer and the
cleanup sweep, over an explicit model of the document and of the host's
timer queue.

Conventions of the embedding

* A JavaScript number is the rational it denotes; `NaN` is `none`.  Infinities
  are not represented.
* The counter animator is embedded in exact arithmetic.  The live metrics,
  whose rendered digits depend on it, are embedded in double arithmetic: every
  operation is rounded to the nearest double (`fl`).
* The host built-ins the script calls (`parseFloat`, `Math.random`, and
  `toLocaleString`, which follows the host's locale) are taken as parameters,
  bundled in `Host`.
* A thrown `TypeError` is an `Outcome.threw`, carrying the world as it was
  when the exception left the function.
-/

namespace Blink

/-! ## JavaScript values -/

/-- A JavaScript number: `some q` is the finite value `q`, `none` is `NaN`. -/
abbrev JSNum := Option ℚ

/-- The `+` of two numbers; `NaN` is absorbing. -/
def jsAdd : JSNum → JSNum → JSNum
  | some x, some y => some (x + y)
  | _, _ => none

/-- The `-` of two numbers; `NaN` is absorbing. -/
def jsSub : JSNum → JSNum → JSNum
  | some x, some y => some (x - y)
  | _, _ => none

/-- The `*` of two numbers; `NaN` is absorbing (also `NaN * 0`). -/
def jsMul : JSNum → JSNum → JSNum
  | some x, some y => some (x * y)
  | _, _ => none

/-! ### Double arithmetic -/

/-- The nearest integer, ties to the even one. -/
def roundEven (z : ℚ) : Int :=
  let f := ⌊z⌋
  if z - f < 1 / 2 then f
  else if 1 / 2 < z - f then f + 1
  else if f % 2 = 0 then f else f + 1

/-- The exponent of the binade of a positive number: the `e` with
`2^e ≤ x < 2^(e+1)`, and -1022 for the subnormal numbers. -/
def binade (x : ℚ) : Int := max (Int.log 2 x) (-1022)

/-- The spacing of the doubles in the binade of `x`: 53 significant bits. -/
def ulp (x : ℚ) : ℚ := (2 : ℚ) ^ (binade x - 52)

/-- The double nearest to a non-negative number, ties to the even
significand. -/
def flPos (x : ℚ) : ℚ := roundEven (x / ulp x) * ulp x

/-- The double nearest to `x`, ties to even (the rounding of every IEEE-754
operation and of a decimal literal). Results of magnitude `2^1024` and more,
which overflow to an infinity in the host, are not represented. -/
def fl (x : ℚ) : ℚ := if x < 0 then -flPos (-x) else flPos x

/-- The `+` of two doubles. -/
def dblAdd (a b : ℚ) : ℚ := fl (a + b)

/-- The `-` of two doubles. -/
def dblSub (a b : ℚ) : ℚ := fl (a - b)

/-- The `*` of two doubles. -/
def dblMul (a b : ℚ) : ℚ := fl (a * b)

/-- The built-in `isNaN` on a number. -/
def jsIsNaN (v : JSNum) : Bool := v.isNone

/-- The built-in `Math.round` on a finite number: the nearest integer, ties
towards `+∞`. -/
def mathRound (v : ℚ) : Int := ⌊v + 1 / 2⌋

/-- The string of `Math.round(value)`, as produced by a template literal or by
`.toString()`: `Math.round(NaN)` is `NaN`, printed `"NaN"`. -/
def roundText : JSNum → String
  | none => "NaN"
  | some q => toString (mathRound q)

/-- Inserts a comma after every third digit of a reversed digit string. -/
def insertCommas : List Char → List Char
  | a :: b :: c :: d :: rest => a :: b :: c :: ',' :: insertCommas (d :: rest)
  | ds => ds

/-- The built-in `toLocaleString()` of an integer on a host whose default
locale is `en-US`: digits in groups of three separated by commas. -/
def toLocaleStringEnUS (n : Int) : String :=
  (if n < 0 then "-" else "") ++
    String.mk (insertCommas (Nat.toDigits 10 n.natAbs).reverse).reverse

/-- The built-in `toFixed(1)` of a finite number `x`: with `n` the integer for
which `n / 10` is closest to `|x|` (the larger on a tie), the digits of `n`
with a point before the last one, and a leading `-` when `x < 0`. -/
def toFixed1 (x : ℚ) : String :=
  let n := ⌊|x| * 10 + 1 / 2⌋.toNat
  (if x < 0 then "-" else "") ++ toString (n / 10) ++ "." ++ toString (n % 10)

/-- The built-in `String.prototype.includes` for a one-character needle. -/
def includesChar (s : String) (c : Char) : Bool := s.toList.contains c

/-- The host built-ins the script relies on. `parseFloat` is the built-in on
strings; `random k` is the value returned by the `k`-th call of
`Math.random()`; `toLocaleString` is the method of that name on an integral
number, in the host's default locale. -/
structure Host where
  parseFloat : String → JSNum
  random : Nat → ℚ
  toLocaleString : Int → String

/-- The value of `parseFloat(element.getAttribute(name))`: a missing attribute is
`null`, which `parseFloat` first converts to the string `"null"`. -/
def parseFloatAttr (host : Host) (attr : Option String) : JSNum :=
  host.parseFloat (attr.getD "null")

/-! ## The document -/

/-- A `DOMTokenList`: the class names of an element, in order, without
repetition. -/
abbrev ClassList := List String

/-- The method `classList.remove(token)`. -/
def classListRemove (cl : ClassList) (token : String) : ClassList :=
  cl.filter (fun c => c != token)

/-- The method `classList.add(token)`: appends the token unless present. -/
def classListAdd (cl : ClassList) (token : String) : ClassList :=
  if token ∈ cl then cl else cl ++ [token]

/-- Whether an element carries the `active` marking. -/
def isActive (cl : ClassList) : Bool := cl.contains "active"

/-- A `.tab-btn` element: its `data-tab` attribute (`none` when absent) and its
class list. -/
structure TabButton where
  dataTab : Option String
  classList : ClassList
  deriving DecidableEq, Repr

/-- A `.tab-content` element: its `id` (the empty string when absent) and its
class list. -/
structure TabContent where
  id : String
  classList : ClassList
  deriving DecidableEq, Repr

/-- An element showing a number: its `data-value` attribute (`none` when
absent) and its text. -/
structure NumberElement where
  dataValue : Option String
  textContent : String
  deriving DecidableEq, Repr

/-- A traffic-light indicator: the class lists of its `.light` descendants, in
document order. -/
abbrev LightGroup := List ClassList

/-- The part of the document the script reads and writes. `headerLight` is the
result of `document.querySelector('.header .traffic-light')`; the other fields
are the results of the `querySelectorAll` calls. The selected elements are
taken to be pairwise distinct. -/
structure Dom where
  tabButtons : List TabButton
  tabContents : List TabContent
  statNumbers : List NumberElement
  improvementNumbers : List NumberElement
  trainingNumbers : List NumberElement
  liveMetrics : List NumberElement
  headerLight : Option LightGroup
  demoLights : List LightGroup
  deriving DecidableEq, Repr

/-! ## Timers, animation frames and the application state -/

/-- A timer identifier returned by `setTimeout` or `setInterval`. The host
issues positive integers only; `index` stands for the identifier `index + 1`,
so a stored handle is never falsy. -/
structure Handle where
  index : Nat
  deriving DecidableEq, Repr

/-- The record `AppState`. -/
structure AppState where
  currentTab : Option String
  animationIntervals : List Handle
  trafficLightInterval : Option Handle
  initialized : Bool
  deriving DecidableEq, Repr

/-- The callbacks the script hands to `setTimeout` and `setInterval`. -/
inductive Callback where
  /-- The arrow function of `showTab`: `triggerTabAnimations(tabId)`. -/
  | triggerTab (tabId : Option String)
  /-- The arrow function of `animateLiveMetrics` for the element at `element`
  of the queried list, closed over `baseValue`. -/
  | liveMetric (element : Nat) (baseValue : ℚ)
  /-- The arrow function of `cycleTrafficLights`, closed over the variable
  `currentLight` of the `cycler`-th call of `startTrafficLightAnimation`. -/
  | advanceLight (cycler : Nat)
  deriving DecidableEq, Repr

/-- A pending timer: `repeating` for `setInterval`, one-shot for `setTimeout`. -/
structure Timer where
  handle : Handle
  repeating : Bool
  delay : ℚ
  callback : Callback
  deriving DecidableEq, Repr

/-- The three lists of counter elements cached in `Elements`. -/
inductive CounterList where
  | stat
  | improvement
  | training
  deriving DecidableEq, Repr

/-- The formatter closures passed to `animateCounter`. -/
inductive Formatter where
  /-- The template `#${Math.round(value)}`. -/
  | ranked
  /-- The template `${Math.round(value)}%`. -/
  | percentage
  /-- The call `Math.round(value).toString()`. -/
  | plain
  deriving DecidableEq, Repr

/-- Applies a formatter closure to a value. -/
def Formatter.apply : Formatter → JSNum → String
  | .ranked, v => "#" ++ roundText v
  | .percentage, v => roundText v ++ "%"
  | .plain, v => roundText v

/-- The closure `updateCounter` of one `animateCounter` call, waiting for an
animation frame: the target element and the captured variables. -/
structure CounterTask where
  list : CounterList
  element : Nat
  start : JSNum
  range : JSNum
  duration : ℚ
  startTime : ℚ
  formatter : Formatter
  deriving DecidableEq, Repr

/-- The whole state the script acts on: its own record, the document, and the
host's queues. `cleared` records the arguments of the `clearInterval` calls
made so far; `cyclers` holds the variable `currentLight` of every call of
`startTrafficLightAnimation`; `now` is `performance.now()`; `randomCalls`
counts the calls of `Math.random()`. -/
structure World where
  app : AppState
  dom : Dom
  timers : List Timer
  nextHandle : Nat
  cleared : List Handle
  frames : List CounterTask
  cyclers : List Nat
  now : ℚ
  randomCalls : Nat
  deriving DecidableEq, Repr

/-- How a call ends: normally, or with an uncaught `TypeError`. -/
inductive Outcome where
  | done (w : World)
  | threw (w : World)
  deriving DecidableEq, Repr

/-- The world a call leaves behind. -/
def Outcome.world : Outcome → World
  | .done w => w
  | .threw w => w

/-- Whether the call returned normally. -/
def Outcome.ok : Outcome → Bool
  | .done _ => true
  | .threw _ => false

/-! ## Counter animator -/

/-- The variable `progress` of `updateCounter`: `Math.min(elapsed / duration, 1)`.
The callers pass the durations 2000 and 1500; the quotient is the rational one,
meaningful for a non-zero duration. -/
def counterProgress (duration elapsed : ℚ) : ℚ := min (elapsed / duration) 1

/-- The variable `currentValue` of `updateCounter` for the captured `start` and
`range`: `start + range * (1 - Math.pow(1 - progress, 3))`. -/
def currentValue (start range : JSNum) (duration elapsed : ℚ) : JSNum :=
  let progress := counterProgress duration elapsed
  let easeProgress := 1 - (1 - progress) ^ 3
  jsAdd start (jsMul range (some easeProgress))

/-- The value `animateCounter(element, start, end, duration, formatter)` computes
at a tick `elapsed` milliseconds after its start: `range` is `end - start`. -/
def counterValue (start end_ : JSNum) (duration elapsed : ℚ) : JSNum :=
  currentValue start (jsSub end_ start) duration elapsed

/-- The text `animateCounter` writes at a tick `elapsed` milliseconds after its
start. -/
def counterText (start end_ : JSNum) (duration elapsed : ℚ) (formatter : Formatter) : String :=
  formatter.apply (counterValue start end_ duration elapsed)

/-- The cached list a counter element belongs to. -/
def Dom.counters (d : Dom) : CounterList → List NumberElement
  | .stat => d.statNumbers
  | .improvement => d.improvementNumbers
  | .training => d.trainingNumbers

/-- The assignment `element.textContent = text` on the element at `i`. -/
def setText (els : List NumberElement) (i : Nat) (text : String) : List NumberElement :=
  els.modify (fun e => { e with textContent := text }) i

/-- The assignment `element.textContent = text` on a counter element. -/
def Dom.setCounterText (d : Dom) (l : CounterList) (i : Nat) (text : String) : Dom :=
  match l with
  | .stat => { d with statNumbers := setText d.statNumbers i text }
  | .improvement => { d with improvementNumbers := setText d.improvementNumbers i text }
  | .training => { d with trainingNumbers := setText d.trainingNumbers i text }

/-- The call `requestAnimationFrame(updateCounter)`. -/
def requestAnimationFrame (task : CounterTask) (w : World) : World :=
  { w with frames := w.frames ++ [task] }

/-- One run of the closure `updateCounter(currentTime)`: writes the formatted
value and asks for another frame while `progress < 1`. -/
def updateCounter (task : CounterTask) (currentTime : ℚ) (w : World) : World :=
  let elapsed := currentTime - task.startTime
  let progress := counterProgress task.duration elapsed
  let value := currentValue task.start task.range task.duration elapsed
  let w1 := { w with dom := w.dom.setCounterText task.list task.element (task.formatter.apply value) }
  if progress < 1 then requestAnimationFrame task w1 else w1

/-- The function `animateCounter`, for the element at `element` of `list`. -/
def animateCounter (list : CounterList) (element : Nat) (start end_ : JSNum) (duration : ℚ)
    (formatter : Formatter) (w : World) : World :=
  let startTime := w.now
  let range := jsSub end_ start
  requestAnimationFrame ⟨list, element, start, range, duration, startTime, formatter⟩ w

/-- The host runs the pending animation-frame callbacks at time `t`. -/
def animationFrame (t : ℚ) (w : World) : World :=
  w.frames.foldl (fun acc task => updateCounter task t acc) { w with frames := [], now := t }

/-- The formatter closure built by `animateStatNumbers` from `isRanked` and
`isPercentage`. -/
def statFormatter (isRanked isPercentage : Bool) : Formatter :=
  if isRanked then .ranked else if isPercentage then .percentage else .plain

/-- The body of the `forEach` callback of `animateStatNumbers`. -/
def animateStatNumber (host : Host) (acc : World) (ie : Nat × NumberElement) : World :=
  let targetValue := parseFloatAttr host ie.2.dataValue
  let isPercentage := includesChar ie.2.textContent '%'
  let isRanked := includesChar ie.2.textContent '#'
  animateCounter .stat ie.1 (some 0) targetValue 2000 (statFormatter isRanked isPercentage) acc

/-- The function `animateStatNumbers`. -/
def animateStatNumbers (host : Host) (w : World) : World :=
  w.dom.statNumbers.enum.foldl (animateStatNumber host) w

/-- The body of the `forEach` callback of `animateImprovementNumbers`. -/
def animateImprovementNumber (host : Host) (acc : World) (ie : Nat × NumberElement) : World :=
  let targetValue := parseFloatAttr host ie.2.dataValue
  animateCounter .improvement ie.1 (some 0) targetValue 1500 .percentage acc

/-- The function `animateImprovementNumbers`. -/
def animateImprovementNumbers (host : Host) (w : World) : World :=
  w.dom.improvementNumbers.enum.foldl (animateImprovementNumber host) w

/-- The body of the `forEach` callback of `animateTrainingNumbers`. -/
def animateTrainingNumber (host : Host) (acc : World) (ie : Nat × NumberElement) : World :=
  let targetValue := parseFloatAttr host ie.2.dataValue
  if !jsIsNaN targetValue then
    animateCounter .training ie.1 (some 0) targetValue 2000 .plain acc
  else acc

/-- The function `animateTrainingNumbers`. -/
def animateTrainingNumbers (host : Host) (w : World) : World :=
  w.dom.trainingNumbers.enum.foldl (animateTrainingNumber host) w

/-! ## Timers -/

/-- The calls `setTimeout` and `setInterval`: queue a timer under a fresh
handle and return the handle. -/
def setTimer (repeating : Bool) (delay : ℚ) (callback : Callback) (w : World) : World × Handle :=
  let h : Handle := ⟨w.nextHandle⟩
  ({ w with timers := w.timers ++ [⟨h, repeating, delay, callback⟩],
            nextHandle := w.nextHandle + 1 }, h)

/-- The call `clearInterval(h)`: the timer with that handle, if any, is
dropped; the call is recorded. -/
def clearInterval (h : Handle) (w : World) : World :=
  { w with timers := w.timers.filter (fun t => t.handle != h), cleared := w.cleared ++ [h] }

/-- The call `Math.random()`. -/
def mathRandom (host : Host) (w : World) : ℚ × World :=
  (host.random w.randomCalls, { w with randomCalls := w.randomCalls + 1 })

/-! ## Live metrics -/

/-- The variable `newValue` of a live-metric tick with draw `r`, in double
arithmetic: `baseValue * (1 + (r - 0.5) * 0.1)`. The literals 0.5 and 1 are
doubles; 0.1 denotes the double nearest to 1/10. -/
def liveNewValue (baseValue r : ℚ) : ℚ :=
  let fluctuation := dblMul (dblSub r (1 / 2)) (fl (1 / 10))
  dblMul baseValue (dblAdd 1 fluctuation)

/-- The text a live-metric tick with draw `r` writes. -/
def liveText (host : Host) (baseValue r : ℚ) : String :=
  let newValue := liveNewValue baseValue r
  if baseValue > 1000 then host.toLocaleString (mathRound newValue) else toFixed1 newValue

/-- The period passed to `setInterval` for draw `r`, in double arithmetic:
`2000 + r * 3000`. -/
def livePeriod (r : ℚ) : ℚ := dblAdd 2000 (dblMul r 3000)

/-- One run of the interval callback of `animateLiveMetrics`. -/
def liveMetricTick (host : Host) (element : Nat) (baseValue : ℚ) (w : World) : World :=
  let (r, w1) := mathRandom host w
  { w1 with dom := { w1.dom with liveMetrics := setText w1.dom.liveMetrics element (liveText host baseValue r) } }

/-- The body of the `forEach` callback of `animateLiveMetrics`. -/
def animateLiveMetric (host : Host) (acc : World) (ie : Nat × NumberElement) : World :=
  match parseFloatAttr host ie.2.dataValue with
  | none => acc
  | some baseValue =>
    let (r, w1) := mathRandom host acc
    let (w2, interval) := setTimer true (livePeriod r) (.liveMetric ie.1 baseValue) w1
    { w2 with app := { w2.app with animationIntervals := w2.app.animationIntervals ++ [interval] } }

/-- The function `animateLiveMetrics`. -/
def animateLiveMetrics (host : Host) (w : World) : World :=
  w.dom.liveMetrics.enum.foldl (animateLiveMetric host) w

/-! ## Tab controller -/

/-- The body of the first `forEach` of `showTab`. -/
def showTabButton (tabId : Option String) (b : TabButton) : TabButton :=
  let cl := classListRemove b.classList "active"
  { b with classList := if b.dataTab = tabId then classListAdd cl "active" else cl }

/-- The body of the second `forEach` of `showTab`. -/
def showTabContent (tabId : Option String) (c : TabContent) : TabContent :=
  let cl := classListRemove c.classList "active"
  { c with classList := if some c.id = tabId then classListAdd cl "active" else cl }

/-- The function `showTab`. The argument is `none` for `null`, the value of
`getAttribute('data-tab')` on a button without that attribute. -/
def showTab (tabId : Option String) (w : World) : World :=
  let dom1 := { w.dom with tabButtons := w.dom.tabButtons.map (showTabButton tabId) }
  let dom2 := { dom1 with tabContents := dom1.tabContents.map (showTabContent tabId) }
  let w1 := { w with dom := dom2, app := { w.app with currentTab := tabId } }
  (setTimer false 100 (.triggerTab tabId) w1).1

/-- The function `triggerTabAnimations`. -/
def triggerTabAnimations (host : Host) (tabId : Option String) (w : World) : World :=
  if tabId = some "overview" then animateImprovementNumbers host w
  else if tabId = some "training" then animateTrainingNumbers host w
  else if tabId = some "analysis" then animateLiveMetrics host w
  else w

/-! ## Traffic-light cycler -/

/-- The array `timings` of `startTrafficLightAnimation`. -/
def timings : List ℚ := [3000, 1000, 3000]

/-- The array `lights` of `startTrafficLightAnimation`. -/
def lights : List String := ["red", "yellow", "green"]

/-- The loop `lightElements.forEach(light => light.classList.remove('active'))`. -/
def clearLights (g : LightGroup) : LightGroup :=
  g.map (fun light => classListRemove light "active")

/-- The statement `lightElements[i].classList.add('active')`: `none` when
`lightElements[i]` is `undefined`, where the statement throws a `TypeError`. -/
def activateLight (g : LightGroup) (i : Nat) : Option LightGroup :=
  if i < g.length then some (g.modify (fun light => classListAdd light "active") i) else none

/-- The loop `demoLights.forEach((lightGroup, index) => ...)` of
`cycleTrafficLights`, from the group at position `index` on: every group is
cleared and its light at `(currentLight + index) % 3` is marked. The flag is
`false` when a lookup threw; the groups after the throwing one are untouched. -/
def updateDemoLights (currentLight : Nat) : Nat → List LightGroup → List LightGroup × Bool
  | _, [] => ([], true)
  | index, lightGroup :: rest =>
    let lightElements := clearLights lightGroup
    let lightIndex := (currentLight + index) % 3
    match activateLight lightElements lightIndex with
    | none => (lightElements :: rest, false)
    | some marked =>
      let r := updateDemoLights currentLight (index + 1) rest
      (marked :: r.1, r.2)

/-- The header part of `cycleTrafficLights`: when the header indicator exists,
its lights are cleared and the one at `currentLight` is marked. The flag is
`false` when the lookup threw. -/
def updateHeaderLight (currentLight : Nat) : Option LightGroup → Option LightGroup × Bool
  | none => (none, true)
  | some headerLight =>
    let lightElements := clearLights headerLight
    match activateLight lightElements currentLight with
    | none => (some lightElements, false)
    | some marked => (some marked, true)

/-- The document part of one run of `cycleTrafficLights` at phase
`currentLight`: the header indicator, then the demo groups. The flag is `false`
when the run threw before reaching the `setTimeout` call. -/
def cycleDom (currentLight : Nat) (d : Dom) : Dom × Bool :=
  let h := updateHeaderLight currentLight d.headerLight
  if h.2 then
    let g := updateDemoLights currentLight 0 d.demoLights
    ({ d with headerLight := h.1, demoLights := g.1 }, g.2)
  else ({ d with headerLight := h.1 }, false)

/-- The variable `currentLight` of the `cycler`-th call of
`startTrafficLightAnimation`. -/
def World.currentLight (w : World) (cycler : Nat) : Nat := w.cyclers.getD cycler 0

/-- One run of the closure `cycleTrafficLights` of the `cycler`-th call of
`startTrafficLightAnimation`: the document is updated and the next change is
scheduled after `timings[currentLight]`. -/
def cycleTrafficLights (cycler : Nat) (w : World) : Outcome :=
  let currentLight := w.currentLight cycler
  let r := cycleDom currentLight w.dom
  let w1 := { w with dom := r.1 }
  if r.2 then
    .done (setTimer false (timings.getD currentLight 0) (.advanceLight cycler) w1).1
  else .threw w1

/-- The arrow function scheduled by `cycleTrafficLights`:
`currentLight = (currentLight + 1) % 3; cycleTrafficLights()`. -/
def advanceLight (cycler : Nat) (w : World) : Outcome :=
  let w1 := { w with cyclers := w.cyclers.set cycler ((w.currentLight cycler + 1) % 3) }
  cycleTrafficLights cycler w1

/-- The function `startTrafficLightAnimation`: a handle stored in
`AppState.trafficLightInterval` is cleared, a fresh `currentLight = 0` is
created, and the cycle is started. -/
def startTrafficLightAnimation (w : World) : Outcome :=
  let w1 := match w.app.trafficLightInterval with
    | some h => clearInterval h w
    | none => w
  let cycler := w1.cyclers.length
  cycleTrafficLights cycler { w1 with cyclers := w1.cyclers ++ [0] }

/-! ## Start-up, timer dispatch and cleanup -/

/-- The function `startAnimations`. The scroll observers set up last hold no
timer and write none of the modelled state. -/
def startAnimations (host : Host) (w : World) : Outcome :=
  startTrafficLightAnimation (animateStatNumbers host w)

/-- The function `initializeApp`. Caching the elements and registering the
listeners write none of the modelled state. -/
def initializeApp (host : Host) (w : World) : Outcome :=
  if w.app.initialized then .done w
  else
    match startAnimations host w with
    | .threw w1 => .threw w1
    | .done w1 =>
      let w2 := showTab (some "overview") w1
      .done { w2 with app := { w2.app with initialized := true } }

/-- The click listener of the tab button at position `i`. -/
def clickTab (i : Nat) (w : World) : World :=
  match w.dom.tabButtons.get? i with
  | none => w
  | some button => showTab button.dataTab w

/-- Runs a timer callback. -/
def runCallback (host : Host) : Callback → World → Outcome
  | .triggerTab tabId, w => .done (triggerTabAnimations host tabId w)
  | .liveMetric element baseValue, w => .done (liveMetricTick host element baseValue w)
  | .advanceLight cycler, w => advanceLight cycler w

/-- The host fires the pending timer with handle `h`: a one-shot timer leaves
the queue first, then the callback runs. `none` when no such timer is
pending. -/
def fireTimer (host : Host) (h : Handle) (w : World) : Option Outcome :=
  match w.timers.find? (fun t => t.handle == h) with
  | none => none
  | some t =>
    let w1 := if t.repeating then w
      else { w with timers := w.timers.filter (fun u => u.handle != h) }
    some (runCallback host t.callback w1)

/-- The function `cleanup`. -/
def cleanup (w : World) : World :=
  let w1 := w.app.animationIntervals.foldl (fun acc interval => clearInterval interval acc) w
  let w2 := { w1 with app := { w1.app with animationIntervals := [] } }
  match w2.app.trafficLightInterval with
  | some h =>
    let w3 := clearInterval h w2
    { w3 with app := { w3.app with trafficLightInterval := none } }
  | none => w2

/-- The state of the page when the script is loaded: the record `AppState` as
declared, no timer, no frame. -/
def World.initial (d : Dom) : World :=
  { app := { currentTab := some "overview", animationIntervals := [],
             trafficLightInterval := none, initialized := false },
    dom := d, timers := [], nextHandle := 0, cleared := [], frames := [],
    cyclers := [], now := 0, randomCalls := 0 }

/-! ## Example pages -/

/-- A page with two buttons for the same tab. -/
def twoButtonPage : Dom :=
  { tabButtons := [⟨some "training", []⟩, ⟨some "training", ["tab-btn"]⟩],
    tabContents := [⟨"training", []⟩],
    statNumbers := [], improvementNumbers := [], trainingNumbers := [], liveMetrics := [],
    headerLight := none, demoLights := [] }

/-- Which lights of a group carry the `active` marking, in order. -/
def activeFlags (g : LightGroup) : List Bool := g.map isActive

/-- The flags of a group of `n` lights of which exactly the one at `k` is
active. -/
def onlyActive (n k : Nat) : List Bool := (List.range n).map (fun j => decide (j = k))

/-- A page whose first demo group has two lights only and whose second has
three, marked as the run at phase 1 leaves them; the cycler is at phase 2. -/
def shortGroupWorld : World :=
  { World.initial
      { tabButtons := [], tabContents := [], statNumbers := [], improvementNumbers := [],
        trainingNumbers := [], liveMetrics := [], headerLight := none,
        demoLights := [[["light"], ["light", "active"]],
                       [["light"], ["light"], ["light", "active"]]] } with
    cyclers := [2] }

/-- A page with a three-light header indicator and two three-light demo
groups, all lights marked active beforehand; the cycler is at phase 1. -/
def threeLightWorld : World :=
  { World.initial
      { tabButtons := [], tabContents := [], statNumbers := [], improvementNumbers := [],
        trainingNumbers := [], liveMetrics := [],
        headerLight := some [["light", "active"], ["light", "active"], ["light", "active"]],
        demoLights := [[["light", "active"], ["light"], ["light", "active"]],
                       [["light"], ["light"], ["light", "active"]]] } with
    cyclers := [1] }

/-! ## Running the traffic-light cycle -/

/-- Every indicator of the page has at least three lights. -/
def Dom.lightsComplete (d : Dom) : Bool :=
  (match d.headerLight with
    | none => true
    | some headerLight => decide (3 ≤ headerLight.length)) &&
  d.demoLights.all (fun g => decide (3 ≤ g.length))

/-- A queued timer carries a handle the host has issued, and a queued phase
change belongs to a cycler that exists. -/
def Timer.validIn (w : World) (t : Timer) : Bool :=
  decide (t.handle.index < w.nextHandle) &&
  (match t.callback with
    | .advanceLight c => decide (c < w.cyclers.length)
    | _ => true)

/-- The timer queue is consistent with the handle counter and the cyclers. -/
def World.wellFormed (w : World) : Bool := w.timers.all (Timer.validIn w)

/-- The pending phase-change timer of a cycler, if any. -/
def cycleTimer (cycler : Nat) (w : World) : Option Timer :=
  w.timers.find? (fun t => t.callback == .advanceLight cycler)

/-- The host fires the pending phase-change timer of `cycler`; `none` when
none is pending. -/
def fireCycle (host : Host) (cycler : Nat) (w : World) : Option World :=
  match cycleTimer cycler w with
  | none => none
  | some t => (fireTimer host t.handle w).map Outcome.world

/-- The world after `n` phase changes of `cycler`, each fired by the host in
turn; `none` when the cycle stopped before. -/
def advanceTimes (host : Host) (cycler : Nat) : Nat → World → Option World
  | 0, w => some w
  | n + 1, w =>
    match advanceTimes host cycler n w with
    | none => none
    | some w1 => fireCycle host cycler w1

/-- The phase-change timer of `cycler` is pending: a one-shot timer of delay
`timings[p]`, the last of the queue and the only one of this cycler. -/
def Queued (cycler p : Nat) (w : World) : Prop :=
  ∃ others k, w.timers = others ++ [⟨⟨k⟩, false, timings.getD p 0, .advanceLight cycler⟩] ∧
    w.nextHandle = k + 1 ∧ (∀ t ∈ others, t.handle.index < k) ∧
    ∀ t ∈ others, t.callback ≠ .advanceLight cycler

/-- No phase-change timer of `cycler` is pending: its last run threw before
scheduling one. -/
def Stopped (cycler : Nat) (w : World) : Prop :=
  (∀ t ∈ w.timers, t.handle.index < w.nextHandle) ∧
  ∀ t ∈ w.timers, t.callback ≠ .advanceLight cycler

/-- The state of a cycle between two phase changes: the cycler is at phase `p`
and its next change is either pending or was never scheduled. -/
structure AtPhase (cycler p : Nat) (w : World) : Prop where
  phase : w.cyclers[cycler]? = some p
  timer : Queued cycler p w ∨ Stopped cycler w

/-- The state of a running cycle between two phase changes, on a page whose
indicators are complete: the cycler is at phase `p` and its next change is
pending. -/
structure Cycling (cycler p : Nat) (w : World) : Prop where
  phase : w.cyclers[cycler]? = some p
  complete : w.dom.lightsComplete = true
  queue : Queued cycler p w

/-! ## An example host -/

/-- Reads an unsigned decimal integer, digit by digit; `none` on any other
character. -/
def parseDigits : List Char → Nat → Option Nat
  | [], acc => some acc
  | c :: cs, acc => if c.isDigit then parseDigits cs (acc * 10 + (c.toNat - 48)) else none

/-- A host for the example pages: its `parseFloat` reads the unsigned decimal
integers and yields `NaN` on every other string (as on `"null"`); its
`Math.random()` returns 53/128, then 57/128, then 1/2 for ever; its locale is
`en-US`. -/
def exampleHost : Host :=
  { parseFloat := fun s =>
      match s.toList with
      | [] => none
      | cs => (parseDigits cs 0).map (fun n => (n : ℚ)),
    random := fun k => if k = 0 then 53 / 128 else if k = 1 then 57 / 128 else 1 / 2,
    toLocaleString := toLocaleStringEnUS }

/-- A page with two live metrics, of base 1500 and 42. -/
def metricsWorld : World :=
  World.initial
    { tabButtons := [], tabContents := [], statNumbers := [], improvementNumbers := [],
      trainingNumbers := [],
      liveMetrics := [⟨some "1500", "1,500"⟩, ⟨some "42", "42.0"⟩],
      headerLight := none, demoLights := [] }

/-- A page whose three counter lists each hold one element without a
`data-value` attribute. -/
def missingValueWorld : World :=
  World.initial
    { tabButtons := [], tabContents := [],
      statNumbers := [⟨none, "#1"⟩],
      improvementNumbers := [⟨none, "0%"⟩],
      trainingNumbers := [⟨none, "0"⟩],
      liveMetrics := [], headerLight := none, demoLights := [] }

/-- A dashboard page: three tabs, a three-light header indicator, one demo
group and two live metrics. -/
def dashboardPage : Dom :=
  { tabButtons := [⟨some "overview", ["tab-btn", "active"]⟩, ⟨some "training", ["tab-btn"]⟩,
                   ⟨some "analysis", ["tab-btn"]⟩],
    tabContents := [⟨"overview", ["tab-content", "active"]⟩, ⟨"training", ["tab-content"]⟩,
                    ⟨"analysis", ["tab-content"]⟩],
    statNumbers := [], improvementNumbers := [], trainingNumbers := [],
    liveMetrics := [⟨some "1500", "1,500"⟩, ⟨some "42", "42.0"⟩],
    headerLight := some [["light", "red"], ["light", "yellow"], ["light", "green"]],
    demoLights := [[["light"], ["light"], ["light"]]] }

/-- A session on the dashboard page: the script starts, the delayed animation
of the overview tab runs, the user opens the analysis tab, whose delayed
animation starts the live metrics, and the page is torn down. -/
def tornDownSession : Option World :=
  match initializeApp exampleHost (World.initial dashboardPage) with
  | .threw _ => none
  | .done w1 =>
    match fireTimer exampleHost ⟨1⟩ w1 with
    | none => none
    | some o2 =>
      match fireTimer exampleHost ⟨2⟩ (clickTab 2 o2.world) with
      | none => none
      | some o3 => some (cleanup o3.world)

/-- The dashboard page after two calls of `startTrafficLightAnimation`. -/
def startedTwice : World :=
  (startTrafficLightAnimation
    (startTrafficLightAnimation (World.initial dashboardPage)).world).world

/-! ## Reachable worlds -/

/-- The worlds a session on the page `d` can be in: the page as loaded,
followed by any sequence of calls of the script's entry points and of events
delivered by the host (a timer fires, an animation frame runs). -/
inductive Reachable (host : Host) (d : Dom) : World → Prop
  | loaded : Reachable host d (World.initial d)
  | init {w : World} : Reachable host d w → Reachable host d (initializeApp host w).world
  | tab {w : World} (tabId : Option String) : Reachable host d w →
      Reachable host d (showTab tabId w)
  | timer {w : World} (h : Handle) (o : Outcome) : Reachable host d w →
      fireTimer host h w = some o → Reachable host d o.world
  | frame {w : World} (t : ℚ) : Reachable host d w → Reachable host d (animationFrame t w)
  | teardown {w : World} : Reachable host d w → Reachable host d (cleanup w)
  | restart {w : World} : Reachable host d w →
      Reachable host d (startTrafficLightAnimation w).world

/-! ## A loop invariant rule -/

/-- A property kept by the body of a `forEach` loop is kept by the loop. -/
theorem foldl_invariant {α : Type} (P : World → Prop) (f : World → α → World)
    (hf : ∀ acc x, P acc → P (f acc x)) (l : List α) (w : World) (hw : P w) :
    P (l.foldl f w) := by
  induction l generalizing w with
  | nil => exact hw
  | cons x xs ih => exact ih (f w x) (hf w x hw)

/-! ## Counter animator: endpoints and monotonicity -/

theorem counterValue_some (start end_ duration elapsed : ℚ) :
    counterValue (some start) (some end_) duration elapsed =
      some (start + (end_ - start) * (1 - (1 - counterProgress duration elapsed) ^ 3)) := by
  simp [counterValue, currentValue, jsSub, jsMul, jsAdd]

theorem counterProgress_zero (duration : ℚ) : counterProgress duration 0 = 0 := by
  simp [counterProgress]

theorem counterProgress_done (duration elapsed : ℚ) (hd : 0 < duration) (h : duration ≤ elapsed) :
    counterProgress duration elapsed = 1 := by
  unfold counterProgress
  exact min_eq_right ((one_le_div hd).2 h)

theorem counterProgress_mono (duration e1 e2 : ℚ) (hd : 0 < duration) (h : e1 ≤ e2) :
    counterProgress duration e1 ≤ counterProgress duration e2 := by
  unfold counterProgress
  exact min_le_min (div_le_div_of_nonneg_right h hd.le) le_rfl

theorem cube_mono (a b : ℚ) (h : a ≤ b) : a ^ 3 ≤ b ^ 3 :=
  (Odd.strictMono_pow (R := ℚ) (n := 3) (by decide)).monotone h

theorem mathRound_mono (a b : ℚ) (h : a ≤ b) : mathRound a ≤ mathRound b := by
  unfold mathRound
  exact Int.floor_le_floor (by linarith)

theorem mathRound_intCast (n : Int) : mathRound (n : ℚ) = n := by
  unfold mathRound
  rw [Int.floor_eq_iff]
  constructor <;> linarith

theorem getElem?_setText (els : List NumberElement) (i : Nat) (text : String) :
    (setText els i text)[i]? = els[i]?.map (fun e => { e with textContent := text }) := by
  simp [setText]

theorem getElem?_setCounterText (d : Dom) (l : CounterList) (i : Nat) (text : String) :
    ((d.setCounterText l i text).counters l)[i]? =
      ((d.counters l)[i]?).map (fun e => { e with textContent := text }) := by
  cases l <;> simp [Dom.setCounterText, Dom.counters, getElem?_setText]

/-- The text a tick of `updateCounter` leaves in its target element. -/
theorem updateCounter_text (task : CounterTask) (t : ℚ) (w : World) :
    ((updateCounter task t w).dom.counters task.list)[task.element]? =
      ((w.dom.counters task.list)[task.element]?).map (fun e =>
        { e with textContent := Formatter.apply task.formatter (currentValue task.start task.range task.duration (t - task.startTime)) }) := by
  unfold updateCounter
  simp only []
  split <;> simp [requestAnimationFrame, getElem?_setCounterText]

/-- A tick of `updateCounter` asks for another frame exactly while
`progress < 1`. -/
theorem updateCounter_frames (task : CounterTask) (t : ℚ) (w : World) :
    (updateCounter task t w).frames =
      if counterProgress task.duration (t - task.startTime) < 1 then w.frames ++ [task]
      else w.frames := by
  unfold updateCounter
  simp only []
  split <;> simp [requestAnimationFrame]

/-- C1: for every start, end and duration > 0 the value `animateCounter`
computes at elapsed = 0 is start and at every elapsed ≥ duration is end, and
so is the text it renders through any of the formatters; the tick closure
queued by `animateCounter` writes exactly that text into its element, and at
elapsed ≥ duration it asks for no further frame. -/
theorem animateCounter_endpoints (start end_ duration : ℚ) (hd : 0 < duration)
    (formatter : Formatter) (list : CounterList) (element : Nat) (w : World) :
    counterValue (some start) (some end_) duration 0 = some start ∧
    counterText (some start) (some end_) duration 0 formatter = formatter.apply (some start) ∧
    (∀ elapsed, duration ≤ elapsed →
      counterValue (some start) (some end_) duration elapsed = some end_ ∧
      counterText (some start) (some end_) duration elapsed formatter
        = formatter.apply (some end_)) ∧
    ∃ task,
      (animateCounter list element (some start) (some end_) duration formatter w).frames
        = w.frames ++ [task] ∧
      (∀ v : World, ((updateCounter task w.now v).dom.counters list)[element]? =
        ((v.dom.counters list)[element]?).map (fun e =>
          { e with textContent := formatter.apply (some start) })) ∧
      (∀ (v : World) (t : ℚ), w.now + duration ≤ t →
        ((updateCounter task t v).dom.counters list)[element]? =
          ((v.dom.counters list)[element]?).map (fun e =>
            { e with textContent := formatter.apply (some end_) }) ∧
        (updateCounter task t v).frames = v.frames) := by
  have h0 : counterValue (some start) (some end_) duration 0 = some start := by
    rw [counterValue_some, counterProgress_zero]; simp
  have h1 : ∀ elapsed, duration ≤ elapsed →
      counterValue (some start) (some end_) duration elapsed = some end_ := by
    intro elapsed h
    rw [counterValue_some, counterProgress_done duration elapsed hd h]; simp
  refine ⟨h0, by simp [counterText, h0], fun elapsed h => ⟨h1 elapsed h, by simp [counterText, h1 elapsed h]⟩, ?_⟩
  refine ⟨⟨list, element, some start, jsSub (some end_) (some start), duration, w.now, formatter⟩,
    by simp [animateCounter, requestAnimationFrame], ?_, ?_⟩
  · intro v
    rw [updateCounter_text]
    have := h0
    simp only [counterValue] at this
    simp [this]
  · intro v t ht
    have hle : duration ≤ t - w.now := by linarith
    refine ⟨?_, ?_⟩
    · rw [updateCounter_text]
      have := h1 _ hle
      simp only [counterValue] at this
      simp [this]
    · rw [updateCounter_frames]
      simp [counterProgress_done duration _ hd hle]

/-- Witness of C1: from 0 to 250 over 1500 ms with the percentage formatter the
text is "0%" at elapsed 0 and "250%" at elapsed 1500. -/
theorem animateCounter_endpoints_witness :
    (0 : ℚ) < 1500 ∧
    counterText (some 0) (some 250) 1500 0 .percentage = "0%" ∧
    counterText (some 0) (some 250) 1500 1500 .percentage = "250%" := by
  have h := animateCounter_endpoints 0 250 1500 (by norm_num) .percentage .improvement 0
    (World.initial ⟨[], [], [], [⟨some "250", "0%"⟩], [], [], none, []⟩)
  have e0 : mathRound 0 = 0 := by simpa using mathRound_intCast 0
  have e1 : mathRound 250 = 250 := by simpa using mathRound_intCast 250
  refine ⟨by norm_num, ?_, ?_⟩
  · rw [h.2.1]
    simp only [Formatter.apply, roundText, e0]
    decide
  · rw [(h.2.2.1 1500 le_rfl).2]
    simp only [Formatter.apply, roundText, e1]
    decide

/-- C7: for start < end and duration > 0 the value `animateCounter` computes is
start + (end - start) * (1 - (1 - min(elapsed / duration, 1))^3), and it is
non-decreasing in elapsed, also after `Math.round`. -/
theorem counterValue_monotone (start end_ duration e1 e2 : ℚ) (hse : start < end_)
    (hd : 0 < duration) (h : e1 ≤ e2) :
    ∃ v1 v2 : ℚ,
      v1 = start + (end_ - start) * (1 - (1 - min (e1 / duration) 1) ^ 3) ∧
      v2 = start + (end_ - start) * (1 - (1 - min (e2 / duration) 1) ^ 3) ∧
      counterValue (some start) (some end_) duration e1 = some v1 ∧
      counterValue (some start) (some end_) duration e2 = some v2 ∧
      v1 ≤ v2 ∧ mathRound v1 ≤ mathRound v2 := by
  refine ⟨_, _, rfl, rfl, counterValue_some _ _ _ _, counterValue_some _ _ _ _, ?_⟩
  have hp := counterProgress_mono duration e1 e2 hd h
  unfold counterProgress at hp
  have hc := cube_mono _ _ (sub_le_sub_left hp 1)
  have hr : (0 : ℚ) < end_ - start := sub_pos.2 hse
  have hv : start + (end_ - start) * (1 - (1 - min (e1 / duration) 1) ^ 3)
      ≤ start + (end_ - start) * (1 - (1 - min (e2 / duration) 1) ^ 3) := by
    have := mul_le_mul_of_nonneg_left (sub_le_sub_left hc 1) hr.le
    linarith
  exact ⟨hv, mathRound_mono _ _ hv⟩

/-- Witness of C7: from 0 to 250 over 1500 ms, the ticks at 300 ms and 900 ms. -/
theorem counterValue_monotone_witness :
    ∃ v1 v2 : ℚ,
      v1 = 0 + (250 - 0) * (1 - (1 - min (300 / 1500) 1) ^ 3) ∧
      v2 = 0 + (250 - 0) * (1 - (1 - min (900 / 1500) 1) ^ 3) ∧
      counterValue (some 0) (some 250) 1500 300 = some v1 ∧
      counterValue (some 0) (some 250) 1500 900 = some v2 ∧
      v1 ≤ v2 ∧ mathRound v1 ≤ mathRound v2 :=
  counterValue_monotone 0 250 1500 300 900 (by norm_num) (by norm_num) (by norm_num)

/-! ## Tab controller -/

theorem isActive_remove (cl : ClassList) : isActive (classListRemove cl "active") = false := by
  simp [isActive, classListRemove]

theorem isActive_add (cl : ClassList) : isActive (classListAdd cl "active") = true := by
  unfold isActive classListAdd
  split <;> simp_all

theorem showTab_dom (tabId : Option String) (w : World) :
    (showTab tabId w).dom =
      { w.dom with tabButtons := w.dom.tabButtons.map (showTabButton tabId),
                   tabContents := w.dom.tabContents.map (showTabContent tabId) } := by
  simp [showTab, setTimer]

theorem showTabButton_active (tabId : Option String) (b : TabButton) :
    isActive (showTabButton tabId b).classList = decide (b.dataTab = tabId) := by
  unfold showTabButton
  by_cases h : b.dataTab = tabId <;> simp [h, isActive_add, isActive_remove]

theorem showTabContent_active (tabId : Option String) (c : TabContent) :
    isActive (showTabContent tabId c).classList = decide (some c.id = tabId) := by
  unfold showTabContent
  by_cases h : some c.id = tabId <;> simp [h, isActive_add, isActive_remove]

/-- Counterexample to C2: with two buttons whose `data-tab` is "training",
`showTab("training")` leaves two active buttons, not exactly one. -/
theorem showTab_two_active :
    ((showTab (some "training") (World.initial twoButtonPage)).dom.tabButtons.filter
      (fun b => isActive b.classList)).length = 2 := by
  decide

/-- C2, amended: after `showTab(tabId)` a tab button is active if and only if its
`data-tab` equals `tabId`, and a panel if and only if its `id` equals `tabId`,
whatever the markings before (the elements keep their order and identifiers);
hence the number of active buttons, and of active panels, is the number of
buttons, and of panels, whose identifier is `tabId`. -/
theorem showTab_active_iff (tabId : Option String) (w : World) :
    (showTab tabId w).dom.tabButtons.map (fun b => (b.dataTab, isActive b.classList)) =
      w.dom.tabButtons.map (fun b => (b.dataTab, decide (b.dataTab = tabId))) ∧
    (showTab tabId w).dom.tabContents.map (fun c => (c.id, isActive c.classList)) =
      w.dom.tabContents.map (fun c => (c.id, decide (some c.id = tabId))) ∧
    ((showTab tabId w).dom.tabButtons.filter (fun b => isActive b.classList)).length =
      (w.dom.tabButtons.filter (fun b => decide (b.dataTab = tabId))).length ∧
    ((showTab tabId w).dom.tabContents.filter (fun c => isActive c.classList)).length =
      (w.dom.tabContents.filter (fun c => decide (some c.id = tabId))).length := by
  rw [showTab_dom]
  refine ⟨?_, ?_, ?_, ?_⟩
  · simp only [List.map_map]
    apply List.map_congr_left
    intro b _
    simp only [Function.comp, showTabButton_active]
    simp [showTabButton]
  · simp only [List.map_map]
    apply List.map_congr_left
    intro c _
    simp only [Function.comp, showTabContent_active]
    simp [showTabContent]
  · simp only [List.filter_map, List.length_map]
    congr 1
    apply List.filter_congr
    intro b _
    simp [showTabButton_active]
  · simp only [List.filter_map, List.length_map]
    congr 1
    apply List.filter_congr
    intro c _
    simp [showTabContent_active]

/-! ## Cleanup -/

/-- The sweep `handles.forEach(interval => clearInterval(interval))`. -/
theorem foldl_clearInterval (hs : List Handle) (w : World) :
    hs.foldl (fun acc interval => clearInterval interval acc) w =
      { w with timers := w.timers.filter (fun t => !hs.contains t.handle),
               cleared := w.cleared ++ hs } := by
  induction hs generalizing w with
  | nil => simp
  | cons h hs ih =>
    rw [List.foldl_cons, ih]
    simp only [clearInterval, List.filter_filter, List.append_assoc, List.singleton_append]
    congr 1
    apply List.filter_congr
    intro t _
    by_cases e : t.handle = h <;> simp [e, Bool.and_comm]

theorem cleanup_eq (w : World) :
    cleanup w =
      { w with
        app := { w.app with animationIntervals := [], trafficLightInterval := none },
        timers := (w.timers.filter (fun t => !w.app.animationIntervals.contains t.handle)).filter
          (fun t => !w.app.trafficLightInterval.toList.contains t.handle),
        cleared := w.cleared ++ w.app.animationIntervals ++ w.app.trafficLightInterval.toList } := by
  unfold cleanup
  rw [foldl_clearInterval]
  cases h : w.app.trafficLightInterval with
  | none => simp [h]
  | some x =>
    simp only [h, clearInterval, Option.toList]
    congr 1
    apply List.filter_congr
    intro t _
    by_cases e : t.handle = x <;> simp [e]

/-- C5: `cleanup` calls `clearInterval` on every handle of
`AppState.animationIntervals` and on the traffic-light handle when there is
one, after which no pending timer carries such a handle; it leaves the
collection empty and the traffic-light handle null; a second run changes
nothing, the record of `clearInterval` calls included. -/
theorem cleanup_idempotent (w : World) :
    (∀ h ∈ w.app.animationIntervals,
      h ∈ (cleanup w).cleared ∧ ∀ t ∈ (cleanup w).timers, t.handle ≠ h) ∧
    (∀ h, w.app.trafficLightInterval = some h →
      h ∈ (cleanup w).cleared ∧ ∀ t ∈ (cleanup w).timers, t.handle ≠ h) ∧
    (cleanup w).app.animationIntervals = [] ∧
    (cleanup w).app.trafficLightInterval = none ∧
    (cleanup (cleanup w)).cleared = (cleanup w).cleared ∧
    cleanup (cleanup w) = cleanup w := by
  have hidem : cleanup (cleanup w) = cleanup w := by
    rw [cleanup_eq (cleanup w)]
    rw [cleanup_eq w]
    simp
  refine ⟨?_, ?_, ?_, ?_, by rw [hidem], hidem⟩
  · intro h hh
    rw [cleanup_eq]
    refine ⟨by simp [hh], ?_⟩
    intro t ht e
    simp only [List.mem_filter] at ht
    rw [e] at ht
    simp [hh] at ht
  · intro h hh
    rw [cleanup_eq]
    refine ⟨by simp [hh], ?_⟩
    intro t ht e
    simp only [List.mem_filter] at ht
    rw [e] at ht
    simp [hh] at ht
  · rw [cleanup_eq]
  · rw [cleanup_eq]

/-! ## Traffic lights: one run of `cycleTrafficLights` -/

theorem activeFlags_mark (g : LightGroup) (k : Nat) :
    activeFlags ((clearLights g).modify (fun light => classListAdd light "active") k)
      = onlyActive g.length k := by
  unfold activeFlags onlyActive clearLights
  apply List.ext_getElem?
  intro j
  by_cases hj : j < g.length
  · by_cases hk : k = j
    · subst hk
      simp [List.getElem?_map, List.getElem?_modify, List.getElem?_range hj,
        List.getElem?_eq_getElem hj, isActive_add]
    · have hk' : ¬ j = k := fun h => hk h.symm
      simp [List.getElem?_map, List.getElem?_modify, List.getElem?_range hj,
        List.getElem?_eq_getElem hj, isActive_remove, hk, hk']
  · have hj' : g.length ≤ j := Nat.le_of_not_lt hj
    simp [List.getElem?_eq_none, hj']

theorem activateLight_flags (g : LightGroup) (k : Nat) (hk : k < g.length) :
    ∃ g', activateLight (clearLights g) k = some g' ∧ activeFlags g' = onlyActive g.length k := by
  refine ⟨_, ?_, activeFlags_mark g k⟩
  simp [activateLight, clearLights, hk]

theorem updateDemoLights_flags (p : Nat) (groups : List LightGroup) :
    ∀ (index g : Nat) (grp : LightGroup),
      (∀ g', g' < g → ∀ x, groups[g']? = some x → (p + (index + g')) % 3 < x.length) →
      groups[g]? = some grp → (p + (index + g)) % 3 < grp.length →
      ∃ grp', (updateDemoLights p index groups).1[g]? = some grp' ∧
        activeFlags grp' = onlyActive grp.length ((p + (index + g)) % 3) := by
  induction groups with
  | nil => intro index g grp _ h; simp at h
  | cons first rest ih =>
    intro index g grp hprev hg hlen
    cases g with
    | zero =>
      simp only [List.getElem?_cons_zero, Option.some.injEq] at hg
      subst hg
      obtain ⟨m, hm, hflags⟩ := activateLight_flags first _ hlen
      simp only [Nat.add_zero] at hm
      refine ⟨m, ?_, hflags⟩
      simp [updateDemoLights, hm]
    | succ g =>
      have h0 := hprev 0 (Nat.succ_pos g) first (by simp)
      obtain ⟨m, hm, _⟩ := activateLight_flags first _ h0
      simp only [Nat.add_zero] at hm
      simp only [List.getElem?_cons_succ] at hg
      have hprev' : ∀ g', g' < g → ∀ x, rest[g']? = some x →
          (p + (index + 1 + g')) % 3 < x.length := by
        intro g' hg' x hx
        have := hprev (g' + 1) (Nat.succ_lt_succ hg') x (by simpa using hx)
        have e : index + 1 + g' = index + (g' + 1) := by omega
        rw [e]; exact this
      have e : index + 1 + g = index + (g + 1) := by omega
      obtain ⟨grp', h1, h2⟩ := ih (index + 1) g grp hprev' hg (by rw [e]; exact hlen)
      refine ⟨grp', ?_, by rw [← e]; exact h2⟩
      simp [updateDemoLights, hm, h1]

/-- Counterexample to C4: at phase 2 the lookup in a first demo group of two
lights throws, so the second group, which has three lights, keeps its light 2
active instead of showing light (2 + 1) mod 3 = 0. -/
theorem cycleTrafficLights_short_group :
    ((cycleTrafficLights 0 shortGroupWorld).world.dom.demoLights[1]?).map activeFlags
        = some [false, false, true] ∧
      onlyActive 3 ((2 + 1) % 3) = [true, false, false] ∧
      (cycleTrafficLights 0 shortGroupWorld).ok = false := by
  decide

/-- C4, amended: for every phase p (so for p in {0, 1, 2}) and every prior marking, after
one run of `cycleTrafficLights` at phase p a primary indicator with more than
p lights has exactly its light p active; and when the run reaches it (the
primary indicator, if present, has more than p lights, and every group before
position g has a light at its index) a secondary group at position g with at
least three lights has exactly one active light, the one at (p + g) mod 3,
an index that is always below 3. -/
theorem cycleTrafficLights_marks (p : Nat) (cycler : Nat) (w : World)
    (hw : w.currentLight cycler = p) :
    (∀ hl, w.dom.headerLight = some hl → p < hl.length →
      ∃ hl', (cycleTrafficLights cycler w).world.dom.headerLight = some hl' ∧
        activeFlags hl' = onlyActive hl.length p) ∧
    (∀ g grp, (∀ hl, w.dom.headerLight = some hl → p < hl.length) →
      (∀ g', g' < g → ∀ x, w.dom.demoLights[g']? = some x → (p + g') % 3 < x.length) →
      w.dom.demoLights[g]? = some grp → 3 ≤ grp.length →
      ∃ grp', (cycleTrafficLights cycler w).world.dom.demoLights[g]? = some grp' ∧
        activeFlags grp' = onlyActive grp.length ((p + g) % 3)) ∧
    (∀ g, (p + g) % 3 < 3) := by
  have hdom : (cycleTrafficLights cycler w).world.dom = (cycleDom p w.dom).1 := by
    unfold cycleTrafficLights
    simp only [hw]
    split <;> simp [Outcome.world, setTimer]
  have hmod : ∀ g, (p + g) % 3 < 3 := fun g => Nat.mod_lt _ (by decide)
  refine ⟨?_, ?_, hmod⟩
  · intro hl hhl hlen
    obtain ⟨m, hm, hflags⟩ := activateLight_flags hl p hlen
    refine ⟨m, ?_, hflags⟩
    rw [hdom]
    simp [cycleDom, updateHeaderLight, hhl, hm]
  · intro g grp hhead hprev hg hlen
    have hprev' : ∀ g', g' < g → ∀ x, w.dom.demoLights[g']? = some x →
        (p + (0 + g')) % 3 < x.length := by
      intro g' hg' x hx
      simpa using hprev g' hg' x hx
    obtain ⟨grp', h1, h2⟩ := updateDemoLights_flags p w.dom.demoLights 0 g grp hprev' hg
      (by simpa using lt_of_lt_of_le (hmod g) hlen)
    refine ⟨grp', ?_, by simpa using h2⟩
    rw [hdom]
    cases hh : w.dom.headerLight with
    | none => simp [cycleDom, updateHeaderLight, hh, h1]
    | some hl =>
      obtain ⟨m, hm, _⟩ := activateLight_flags hl p (hhead hl hh)
      simp [cycleDom, updateHeaderLight, hh, hm, h1]

/-- Witness of C4: phase 1 on a page with a three-light header indicator and
two three-light demo groups. -/
theorem cycleTrafficLights_marks_witness :
    (∃ hl', (cycleTrafficLights 0 threeLightWorld).world.dom.headerLight = some hl' ∧
        activeFlags hl' = [false, true, false]) ∧
    (∃ grp', (cycleTrafficLights 0 threeLightWorld).world.dom.demoLights[1]? = some grp' ∧
        activeFlags grp' = [false, false, true]) := by
  have h := cycleTrafficLights_marks 1 0 threeLightWorld (by decide)
  refine ⟨?_, ?_⟩
  · exact h.1 [["light", "active"], ["light", "active"], ["light", "active"]] (by decide)
      (by decide)
  · exact h.2.1 1 [["light"], ["light"], ["light", "active"]]
      (by intro hl hh; cases hh; decide)
      (by
        intro g' hg' x hx
        have e : g' = 0 := by omega
        subst e
        cases hx
        decide)
      (by decide) (by decide)

/-! ## Traffic lights: the phase sequence -/

theorem length_clearLights (g : LightGroup) : (clearLights g).length = g.length := by
  simp [clearLights]

theorem updateDemoLights_complete (p : Nat) (groups : List LightGroup) :
    ∀ index, (∀ g ∈ groups, 3 ≤ g.length) →
      (updateDemoLights p index groups).2 = true ∧
      ∀ g ∈ (updateDemoLights p index groups).1, 3 ≤ g.length := by
  induction groups with
  | nil => intro index _; simp [updateDemoLights]
  | cons first rest ih =>
    intro index h
    have hfirst : 3 ≤ first.length := h first (by simp)
    have hlt : (p + index) % 3 < (clearLights first).length := by
      rw [length_clearLights]
      exact lt_of_lt_of_le (Nat.mod_lt _ (by decide)) hfirst
    obtain ⟨h1, h2⟩ := ih (index + 1) (fun g hg => h g (by simp [hg]))
    simp only [updateDemoLights, activateLight, hlt, if_true]
    refine ⟨h1, ?_⟩
    intro g hg
    simp only [List.mem_cons] at hg
    rcases hg with hg | hg
    · subst hg
      simpa [length_clearLights] using hfirst
    · exact h2 g hg

theorem lightsComplete_iff (d : Dom) :
    d.lightsComplete = true ↔
      (∀ hl, d.headerLight = some hl → 3 ≤ hl.length) ∧ ∀ g ∈ d.demoLights, 3 ≤ g.length := by
  unfold Dom.lightsComplete
  cases h : d.headerLight <;> simp

theorem cycleDom_complete (p : Nat) (hp : p < 3) (d : Dom) (hd : d.lightsComplete = true) :
    (cycleDom p d).2 = true ∧ (cycleDom p d).1.lightsComplete = true := by
  rw [lightsComplete_iff] at hd
  obtain ⟨hh, hg⟩ := hd
  obtain ⟨h1, h2⟩ := updateDemoLights_complete p d.demoLights 0 hg
  cases hhl : d.headerLight with
  | none =>
    simp only [cycleDom, updateHeaderLight, hhl, if_true, h1, true_and]
    rw [lightsComplete_iff]
    exact ⟨by simp, h2⟩
  | some hl =>
    have hlen : p < (clearLights hl).length := by
      rw [length_clearLights]
      exact lt_of_lt_of_le hp (hh hl hhl)
    simp only [cycleDom, updateHeaderLight, hhl, activateLight, hlen, if_true, h1, true_and]
    rw [lightsComplete_iff]
    refine ⟨?_, h2⟩
    intro x hx
    simp only [Option.some.injEq] at hx
    subst hx
    simpa [length_clearLights] using hh hl hhl

theorem currentLight_of_phase {cycler p : Nat} {w : World} (h : w.cyclers[cycler]? = some p) :
    w.currentLight cycler = p := by
  simp [World.currentLight, List.getD, h]

theorem cycleTimer_of_queued {cycler p : Nat} {w : World} (h : Queued cycler p w) :
    ∃ t, cycleTimer cycler w = some t ∧ t.repeating = false ∧ t.delay = timings.getD p 0 ∧
      (w.timers.filter (fun u => u.callback == .advanceLight cycler)) = [t] := by
  obtain ⟨others, k, hq, _, _, hcb⟩ := h
  refine ⟨⟨⟨k⟩, false, timings.getD p 0, .advanceLight cycler⟩, ?_, rfl, rfl, ?_⟩
  · unfold Blink.cycleTimer
    rw [hq, List.find?_append]
    have : others.find? (fun t => t.callback == .advanceLight cycler) = none := by
      rw [List.find?_eq_none]
      intro t ht
      simpa using hcb t ht
    simp [this]
  · rw [hq, List.filter_append]
    have : others.filter (fun t => t.callback == .advanceLight cycler) = [] := by
      rw [List.filter_eq_nil_iff]
      intro t ht
      simpa using hcb t ht
    simp [this]

theorem cycleTimer_of_stopped {cycler : Nat} {w : World} (h : Stopped cycler w) :
    cycleTimer cycler w = none := by
  unfold Blink.cycleTimer
  rw [List.find?_eq_none]
  intro t ht
  simpa using h.2 t ht

/-- A run of `cycleTrafficLights` keeps the phase and either schedules the
next change or throws before doing so. -/
theorem cycleTrafficLights_atPhase (cycler p : Nat) (w : World)
    (hphase : w.cyclers[cycler]? = some p)
    (hh : ∀ t ∈ w.timers, t.handle.index < w.nextHandle)
    (hcb : ∀ t ∈ w.timers, t.callback ≠ .advanceLight cycler) :
    AtPhase cycler p (cycleTrafficLights cycler w).world := by
  have hcur := currentLight_of_phase hphase
  unfold cycleTrafficLights
  simp only [hcur]
  split
  · exact ⟨by simpa [Outcome.world, setTimer] using hphase,
      Or.inl ⟨w.timers, w.nextHandle, by simp [Outcome.world, setTimer],
        by simp [Outcome.world, setTimer], hh, hcb⟩⟩
  · exact ⟨by simpa [Outcome.world] using hphase, Or.inr ⟨hh, hcb⟩⟩

/-- A run of `cycleTrafficLights` on a complete page schedules the next
change. -/
theorem cycleTrafficLights_cycling (cycler p : Nat) (hp : p < 3) (w : World)
    (hphase : w.cyclers[cycler]? = some p) (hdom : w.dom.lightsComplete = true)
    (hh : ∀ t ∈ w.timers, t.handle.index < w.nextHandle)
    (hcb : ∀ t ∈ w.timers, t.callback ≠ .advanceLight cycler) :
    ∃ w', cycleTrafficLights cycler w = .done w' ∧ Cycling cycler p w' := by
  have hcur := currentLight_of_phase hphase
  obtain ⟨h1, h2⟩ := cycleDom_complete p hp w.dom hdom
  refine ⟨(setTimer false (timings.getD p 0) (.advanceLight cycler)
    { w with dom := (cycleDom p w.dom).1 }).1, ?_, ?_⟩
  · unfold cycleTrafficLights
    simp only [hcur, h1, if_true]
  · exact ⟨by simpa [setTimer] using hphase, by simpa [setTimer] using h2,
      ⟨w.timers, w.nextHandle, by simp [setTimer], by simp [setTimer], hh, hcb⟩⟩

/-- Firing the pending phase-change timer takes it off the queue, sets the
phase to `(p + 1) % 3` and runs `cycleTrafficLights`. -/
theorem fireCycle_queued (host : Host) (cycler p : Nat) (w : World)
    (hphase : w.cyclers[cycler]? = some p) (h : Queued cycler p w) :
    ∃ others,
      fireCycle host cycler w = some (cycleTrafficLights cycler
        { w with timers := others, cyclers := w.cyclers.set cycler ((p + 1) % 3) }).world ∧
      (∀ t ∈ others, t.handle.index < w.nextHandle) ∧
      (∀ t ∈ others, t.callback ≠ .advanceLight cycler) ∧
      (w.cyclers.set cycler ((p + 1) % 3))[cycler]? = some ((p + 1) % 3) := by
  obtain ⟨t, ht, _, _, hfil⟩ := cycleTimer_of_queued h
  obtain ⟨others, k, hq, hn, hlt, hcb⟩ := h
  have htq : t = ⟨⟨k⟩, false, timings.getD p 0, .advanceLight cycler⟩ := by
    rw [hq, List.filter_append] at hfil
    have : others.filter (fun t => t.callback == .advanceLight cycler) = [] := by
      rw [List.filter_eq_nil_iff]
      intro t ht
      simpa using hcb t ht
    rw [this] at hfil
    simp only [List.nil_append, List.filter_cons, beq_self_eq_true, if_true, List.filter_nil,
      List.cons.injEq, and_true] at hfil
    exact hfil.symm
  have hne : ∀ u ∈ others, u.handle ≠ ⟨k⟩ := by
    intro u hu e
    have := hlt u hu
    rw [e] at this
    exact lt_irrefl _ this
  have hfind : w.timers.find? (fun u => u.handle == (⟨k⟩ : Handle)) = some t := by
    rw [hq, List.find?_append]
    have : others.find? (fun u => u.handle == (⟨k⟩ : Handle)) = none := by
      rw [List.find?_eq_none]
      intro u hu
      simpa using hne u hu
    simp [this, htq]
  have hfilter : w.timers.filter (fun u => u.handle != (⟨k⟩ : Handle)) = others := by
    rw [hq, List.filter_append]
    have : others.filter (fun u => u.handle != (⟨k⟩ : Handle)) = others := by
      rw [List.filter_eq_self]
      intro u hu
      simpa using hne u hu
    simp [this]
  have hc : cycler < w.cyclers.length := by
    have := hphase
    rw [List.getElem?_eq_some_iff] at this
    exact this.1
  refine ⟨others, ?_, ?_, hcb, by simp [hc]⟩
  · have hcur := currentLight_of_phase hphase
    have hadv : advanceLight cycler { w with timers := others } =
        cycleTrafficLights cycler
          { w with timers := others, cyclers := w.cyclers.set cycler ((p + 1) % 3) } := by
      rw [← hcur]; rfl
    have hth : t.handle = ⟨k⟩ := by rw [htq]
    have htr : t.repeating = false := by rw [htq]
    have htc : t.callback = .advanceLight cycler := by rw [htq]
    unfold fireCycle
    rw [ht]
    simp only [fireTimer, hth, hfind, htr, hfilter, htc, runCallback]
    simp [hadv]
  · intro u hu
    rw [hn]
    exact Nat.lt_succ_of_lt (hlt u hu)

/-- Every phase change the host fires takes the cycler from phase `p` to
`(p + 1) % 3`. -/
theorem fireCycle_atPhase (host : Host) (cycler p : Nat) (w w' : World)
    (h : AtPhase cycler p w) (hw' : fireCycle host cycler w = some w') :
    AtPhase cycler ((p + 1) % 3) w' := by
  rcases h.timer with hq | hs
  · obtain ⟨others, hfire, hh, hcb, hph⟩ := fireCycle_queued host cycler p w h.phase hq
    rw [hfire] at hw'
    cases hw'
    exact cycleTrafficLights_atPhase cycler _ _ hph hh hcb
  · simp [fireCycle, cycleTimer_of_stopped hs] at hw'

/-- Firing the cycle timer moves a running cycle from phase `p` to
`(p + 1) % 3`. -/
theorem fireCycle_cycling (host : Host) (cycler p : Nat) (w : World)
    (h : Cycling cycler p w) :
    ∃ w', fireCycle host cycler w = some w' ∧ Cycling cycler ((p + 1) % 3) w' := by
  obtain ⟨others, hfire, hh, hcb, hph⟩ := fireCycle_queued host cycler p w h.phase h.queue
  obtain ⟨w', hw', hcyc⟩ := cycleTrafficLights_cycling cycler ((p + 1) % 3)
    (Nat.mod_lt _ (by decide))
    { w with timers := others, cyclers := w.cyclers.set cycler ((p + 1) % 3) }
    hph h.complete hh hcb
  exact ⟨w', by rw [hfire, hw']; rfl, hcyc⟩

theorem wellFormed_iff (w : World) :
    w.wellFormed = true ↔
      (∀ t ∈ w.timers, t.handle.index < w.nextHandle) ∧
      ∀ t ∈ w.timers, ∀ c, t.callback = .advanceLight c → c < w.cyclers.length := by
  unfold World.wellFormed Timer.validIn
  simp only [List.all_eq_true, Bool.and_eq_true, decide_eq_true_eq]
  constructor
  · intro h
    refine ⟨fun t ht => (h t ht).1, fun t ht c hc => ?_⟩
    have := (h t ht).2
    rw [hc] at this
    simpa using this
  · rintro ⟨h1, h2⟩ t ht
    refine ⟨h1 t ht, ?_⟩
    cases hc : t.callback with
    | advanceLight c => simpa using h2 t ht c hc
    | triggerTab _ => rfl
    | liveMetric _ _ => rfl

/-- The page as loaded has a consistent timer queue. -/
theorem wellFormed_initial (d : Dom) : (World.initial d).wellFormed = true := by
  simp [World.wellFormed, World.initial]

/-- The world in which `startTrafficLightAnimation` makes its first run of
`cycleTrafficLights`. -/
theorem startTrafficLightAnimation_eq (w : World) (hwf : w.wellFormed = true) :
    ∃ v : World, startTrafficLightAnimation w = cycleTrafficLights w.cyclers.length v ∧
      v.cyclers[w.cyclers.length]? = some 0 ∧ v.dom = w.dom ∧
      (∀ t ∈ v.timers, t.handle.index < v.nextHandle) ∧
      ∀ t ∈ v.timers, t.callback ≠ .advanceLight w.cyclers.length := by
  rw [wellFormed_iff] at hwf
  obtain ⟨hh, hc⟩ := hwf
  have key : ∀ v : World, v.cyclers = w.cyclers → v.dom = w.dom → v.nextHandle = w.nextHandle →
      (∀ t ∈ v.timers, t ∈ w.timers) →
      ∃ u : World, cycleTrafficLights v.cyclers.length { v with cyclers := v.cyclers ++ [0] }
          = cycleTrafficLights w.cyclers.length u ∧
        u.cyclers[w.cyclers.length]? = some 0 ∧ u.dom = w.dom ∧
        (∀ t ∈ u.timers, t.handle.index < u.nextHandle) ∧
        ∀ t ∈ u.timers, t.callback ≠ .advanceLight w.cyclers.length := by
    intro v hvc hvd hvn hvt
    refine ⟨{ v with cyclers := v.cyclers ++ [0] }, by rw [hvc], by simp [hvc], hvd, ?_, ?_⟩
    · intro t ht
      simpa [hvn] using hh t (hvt t ht)
    · intro t ht e
      exact lt_irrefl _ (hc t (hvt t ht) _ e)
  unfold startTrafficLightAnimation
  cases h : w.app.trafficLightInterval with
  | none => exact key w rfl rfl rfl (fun t ht => ht)
  | some x =>
    exact key (clearInterval x w) rfl rfl rfl (fun t ht => by
      simp only [clearInterval, List.mem_filter] at ht
      exact ht.1)

/-- Starting the cycler leaves it at phase 0. -/
theorem startTrafficLightAnimation_atPhase (w : World) (hwf : w.wellFormed = true) :
    AtPhase w.cyclers.length 0 (startTrafficLightAnimation w).world := by
  obtain ⟨v, hv, hph, _, hh, hcb⟩ := startTrafficLightAnimation_eq w hwf
  rw [hv]
  exact cycleTrafficLights_atPhase _ 0 v hph hh hcb

/-- Starting the cycler on a complete page leaves a running cycle at phase 0. -/
theorem startTrafficLightAnimation_cycling (w : World) (hwf : w.wellFormed = true)
    (hdom : w.dom.lightsComplete = true) :
    ∃ w0, startTrafficLightAnimation w = .done w0 ∧ Cycling w.cyclers.length 0 w0 := by
  obtain ⟨v, hv, hph, hd, hh, hcb⟩ := startTrafficLightAnimation_eq w hwf
  rw [hv]
  exact cycleTrafficLights_cycling _ 0 (by decide) v hph (by rw [hd]; exact hdom) hh hcb

theorem advanceTimes_atPhase (host : Host) (cycler : Nat) (w0 : World)
    (h0 : AtPhase cycler 0 w0) (n : Nat) :
    ∀ wn, advanceTimes host cycler n w0 = some wn → AtPhase cycler (n % 3) wn := by
  induction n with
  | zero =>
    intro wn h
    simp only [advanceTimes, Option.some.injEq] at h
    subst h
    exact h0
  | succ n ih =>
    intro wn h
    simp only [advanceTimes] at h
    cases hprev : advanceTimes host cycler n w0 with
    | none => simp [hprev] at h
    | some w1 =>
      simp only [hprev] at h
      have e : (n + 1) % 3 = (n % 3 + 1) % 3 := by omega
      rw [e]
      exact fireCycle_atPhase host cycler (n % 3) w1 wn (ih w1 hprev) h

theorem advanceTimes_cycling (host : Host) (cycler : Nat) (w0 : World) (h0 : Cycling cycler 0 w0)
    (n : Nat) : ∃ wn, advanceTimes host cycler n w0 = some wn ∧ Cycling cycler (n % 3) wn := by
  induction n with
  | zero => exact ⟨w0, rfl, h0⟩
  | succ n ih =>
    obtain ⟨wn, hwn, hcyc⟩ := ih
    obtain ⟨w', hw', hcyc'⟩ := fireCycle_cycling host cycler (n % 3) wn hcyc
    refine ⟨w', by simp [advanceTimes, hwn, hw'], ?_⟩
    have e : (n + 1) % 3 = (n % 3 + 1) % 3 := by omega
    rw [e]
    exact hcyc'

theorem timings_getD (p : Nat) (hp : p < 3) :
    timings.getD p 0 = (if p = 1 then 1000 else 3000) := by
  interval_cases p <;> simp [timings]

/-- C3: the cycle started by `startTrafficLightAnimation` begins at RED (0) and
every phase change the host fires takes phase p to (p + 1) mod 3, so after n
changes the phase is n mod 3, always in {0, 1, 2}; the change leaving phase p
is a one-shot timer of delay `timings[p]`, 3000 ms for RED, 1000 ms for
YELLOW, 3000 ms for GREEN (3 : 1 : 3). On a page whose indicators are
complete all n changes do take place, each scheduled exactly once. -/
theorem trafficLight_phase_sequence (host : Host) (w : World) (hwf : w.wellFormed = true)
    (n : Nat) :
    (startTrafficLightAnimation w).world.currentLight w.cyclers.length = 0 ∧
    (∀ wn, advanceTimes host w.cyclers.length n (startTrafficLightAnimation w).world = some wn →
      wn.currentLight w.cyclers.length = n % 3 ∧ n % 3 < 3 ∧
      (∀ t, cycleTimer w.cyclers.length wn = some t →
        t.repeating = false ∧ t.delay = timings.getD (n % 3) 0 ∧
        t.delay = (if n % 3 = 1 then 1000 else 3000)) ∧
      ∀ wnext, fireCycle host w.cyclers.length wn = some wnext →
        wnext.currentLight w.cyclers.length = (wn.currentLight w.cyclers.length + 1) % 3) ∧
    timings = [3 * 1000, 1 * 1000, 3 * 1000] ∧
    (w.dom.lightsComplete = true →
      ∃ w0 wn wnext t,
        startTrafficLightAnimation w = .done w0 ∧
        advanceTimes host w.cyclers.length n w0 = some wn ∧
        wn.currentLight w.cyclers.length = n % 3 ∧
        fireCycle host w.cyclers.length wn = some wnext ∧
        wnext.currentLight w.cyclers.length = (n + 1) % 3 ∧
        cycleTimer w.cyclers.length wn = some t ∧
        wn.timers.filter (fun u => u.callback == .advanceLight w.cyclers.length) = [t] ∧
        t.repeating = false ∧
        t.delay = timings.getD (n % 3) 0) := by
  have hlt : n % 3 < 3 := Nat.mod_lt _ (by decide)
  have h0 := startTrafficLightAnimation_atPhase w hwf
  refine ⟨currentLight_of_phase h0.phase, ?_, by simp only [timings]; norm_num, ?_⟩
  · intro wn hwn
    have hn := advanceTimes_atPhase host _ _ h0 n wn hwn
    refine ⟨currentLight_of_phase hn.phase, hlt, ?_, ?_⟩
    · intro t ht
      rcases hn.timer with hq | hs
      · obtain ⟨t', ht', hrep, hdelay, _⟩ := cycleTimer_of_queued hq
        rw [ht] at ht'
        cases ht'
        exact ⟨hrep, hdelay, by rw [hdelay, timings_getD _ hlt]⟩
      · rw [cycleTimer_of_stopped hs] at ht
        cases ht
    · intro wnext hnext
      rw [currentLight_of_phase hn.phase,
        currentLight_of_phase (fireCycle_atPhase host _ _ wn wnext hn hnext).phase]
  · intro hdom
    obtain ⟨w0, hw0, hc0⟩ := startTrafficLightAnimation_cycling w hwf hdom
    obtain ⟨wn, hwn, hcn⟩ := advanceTimes_cycling host w.cyclers.length w0 hc0 n
    obtain ⟨wnext, hnext, hcnext⟩ := fireCycle_cycling host w.cyclers.length (n % 3) wn hcn
    obtain ⟨t, ht, hrep, hdelay, hfil⟩ := cycleTimer_of_queued hcn.queue
    have e : (n + 1) % 3 = (n % 3 + 1) % 3 := by omega
    exact ⟨w0, wn, wnext, t, hw0, hwn, currentLight_of_phase hcn.phase, hnext,
      by rw [e]; exact currentLight_of_phase hcnext.phase, ht, hfil, hrep, hdelay⟩

/-- Witness of C3: four phase changes on a page with a three-light header
indicator and two three-light demo groups end at phase 4 mod 3 = YELLOW, with
the next change 1000 ms away. -/
theorem trafficLight_phase_sequence_witness :
    (startTrafficLightAnimation threeLightWorld).world.currentLight 1 = 0 ∧
    timings = [3 * 1000, 1 * 1000, 3 * 1000] ∧
    ∃ w0 wn wnext t,
      startTrafficLightAnimation threeLightWorld = .done w0 ∧
      advanceTimes exampleHost 1 4 w0 = some wn ∧
      wn.currentLight 1 = 1 ∧
      fireCycle exampleHost 1 wn = some wnext ∧
      wnext.currentLight 1 = 2 ∧
      cycleTimer 1 wn = some t ∧
      wn.timers.filter (fun u => u.callback == .advanceLight 1) = [t] ∧
      t.repeating = false ∧
      t.delay = timings.getD 1 0 :=
  have h := trafficLight_phase_sequence exampleHost threeLightWorld (by decide) 4
  ⟨h.1, h.2.2.1, h.2.2.2 (by decide)⟩

/-! ## Double arithmetic -/

theorem roundEven_near (z : ℚ) : |(roundEven z : ℚ) - z| ≤ 1 / 2 := by
  unfold roundEven
  have h1 := Int.floor_le z
  have h2 := Int.lt_floor_add_one z
  simp only []
  split_ifs with a b c
  · rw [abs_le]; constructor <;> linarith
  · rw [abs_le]; push_cast; constructor <;> linarith
  · rw [abs_le]; constructor <;> linarith
  · rw [abs_le]; push_cast; constructor <;> linarith

theorem roundEven_eq_of_near (z : ℚ) (m : Int) (h : |z - m| < 1 / 2) : roundEven z = m := by
  rw [abs_lt] at h
  unfold roundEven
  simp only []
  by_cases hm : (m : ℚ) ≤ z
  · have hf : ⌊z⌋ = m := by
      rw [Int.floor_eq_iff]; constructor <;> linarith
    rw [hf]
    have : z - m < 1 / 2 := by linarith
    rw [if_pos this]
  · have hf : ⌊z⌋ = m - 1 := by
      rw [Int.floor_eq_iff]; push_cast; constructor <;> linarith
    rw [hf]
    have h1 : ¬ z - ((m - 1 : Int) : ℚ) < 1 / 2 := by push_cast; linarith
    have h2 : 1 / 2 < z - ((m - 1 : Int) : ℚ) := by push_cast; linarith
    rw [if_neg h1, if_pos h2]
    omega

theorem roundEven_intCast (m : Int) : roundEven (m : ℚ) = m :=
  roundEven_eq_of_near _ m (by simp)

theorem roundEven_mono (x y : ℚ) (h : x ≤ y) : roundEven x ≤ roundEven y := by
  have hx1 := Int.floor_le x
  have hx2 := Int.lt_floor_add_one x
  have hy1 := Int.floor_le y
  have hy2 := Int.lt_floor_add_one y
  have hfl : ⌊x⌋ ≤ ⌊y⌋ := Int.floor_le_floor h
  have hxu : roundEven x ≤ ⌊x⌋ + 1 := by
    unfold roundEven; simp only []; split_ifs <;> omega
  have hyl : ⌊y⌋ ≤ roundEven y := by
    unfold roundEven; simp only []; split_ifs <;> omega
  rcases lt_or_eq_of_le hfl with hlt | heq
  · omega
  · unfold roundEven
    simp only []
    rw [← heq]
    have hd : x - ⌊x⌋ ≤ y - ⌊x⌋ := by linarith
    split_ifs <;> first | omega | (exfalso; linarith)

theorem two_zpow_pos (k : Int) : (0 : ℚ) < (2 : ℚ) ^ k := zpow_pos (by norm_num) k

theorem ulp_pos (x : ℚ) : 0 < ulp x := two_zpow_pos _

/-- The binade of a positive number, from its bounds. -/
theorem log_eq_of_bounds (x : ℚ) (e : Int) (h1 : (2 : ℚ) ^ e ≤ x) (h2 : x < (2 : ℚ) ^ (e + 1)) :
    Int.log 2 x = e := by
  have hx : 0 < x := lt_of_lt_of_le (two_zpow_pos e) h1
  have a : e ≤ Int.log 2 x := (Int.zpow_le_iff_le_log (by norm_num) hx).1 (by exact_mod_cast h1)
  have b : Int.log 2 x < e + 1 := (Int.lt_zpow_iff_log_lt (by norm_num) hx).1 (by exact_mod_cast h2)
  omega

theorem roundEven_tie_odd (z : ℚ) (f : Int) (h : z = f + 1 / 2) (hodd : f % 2 = 1) :
    roundEven z = f + 1 := by
  have hf : ⌊z⌋ = f := by
    rw [Int.floor_eq_iff]; constructor <;> linarith
  unfold roundEven
  simp only []
  rw [hf]
  have h1 : ¬ z - (f : ℚ) < 1 / 2 := by linarith
  have h2 : ¬ 1 / 2 < z - (f : ℚ) := by linarith
  have h3 : ¬ f % 2 = 0 := by omega
  rw [if_neg h1, if_neg h2, if_neg h3]

theorem ulp_of_bounds (x : ℚ) (e : Int) (he : -1022 ≤ e) (h1 : (2 : ℚ) ^ e ≤ x)
    (h2 : x < (2 : ℚ) ^ (e + 1)) : ulp x = (2 : ℚ) ^ (e - 52) := by
  unfold ulp binade
  rw [log_eq_of_bounds x e h1 h2, max_eq_left he]

/-- Evaluation of `fl` at a positive number of a normal binade that lies
half-way between two doubles, the lower one of odd significand. -/
theorem fl_eq_of_tie (x : ℚ) (e f : Int) (he : -1022 ≤ e) (h1 : (2 : ℚ) ^ e ≤ x)
    (h2 : x < (2 : ℚ) ^ (e + 1)) (h3 : x / (2 : ℚ) ^ (e - 52) = f + 1 / 2)
    (hodd : f % 2 = 1) : fl x = ((f + 1 : Int) : ℚ) * (2 : ℚ) ^ (e - 52) := by
  have hx : 0 < x := lt_of_lt_of_le (two_zpow_pos e) h1
  unfold fl flPos
  rw [if_neg (not_lt.2 hx.le), ulp_of_bounds x e he h1 h2, roundEven_tie_odd _ f h3 hodd]

/-- Evaluation of `fl` at a positive number of a normal binade. -/
theorem fl_eq_of_near (x : ℚ) (e m : Int) (he : -1022 ≤ e) (h1 : (2 : ℚ) ^ e ≤ x)
    (h2 : x < (2 : ℚ) ^ (e + 1)) (h3 : |x / (2 : ℚ) ^ (e - 52) - m| < 1 / 2) :
    fl x = m * (2 : ℚ) ^ (e - 52) := by
  have hx : 0 < x := lt_of_lt_of_le (two_zpow_pos e) h1
  have hu : ulp x = (2 : ℚ) ^ (e - 52) := by
    unfold ulp binade
    rw [log_eq_of_bounds x e h1 h2, max_eq_left he]
  unfold fl flPos
  rw [if_neg (not_lt.2 hx.le), hu, roundEven_eq_of_near _ m h3]

theorem ulp_eq (x : ℚ) : ulp x = (2 : ℚ) ^ (binade x - 52) := rfl

theorem zpow_split (k : Int) : (2 : ℚ) ^ k = (2 : ℚ) ^ (k - 52) * 4503599627370496 := by
  have : k = (k - 52) + 52 := by ring
  conv_lhs => rw [this, zpow_add₀ (by norm_num : (2 : ℚ) ≠ 0)]
  norm_num

theorem zpow_succ_split (k : Int) : (2 : ℚ) ^ (k + 1) = (2 : ℚ) ^ (k - 52) * 9007199254740992 := by
  have : k + 1 = (k - 52) + 53 := by ring
  rw [this, zpow_add₀ (by norm_num : (2 : ℚ) ≠ 0)]
  norm_num

theorem lt_binade_succ (x : ℚ) : x < (2 : ℚ) ^ (binade x + 1) := by
  have h := Int.lt_zpow_succ_log_self (R := ℚ) (b := 2) (by norm_num) x
  have hle : Int.log 2 x + 1 ≤ binade x + 1 := by unfold binade; omega
  exact lt_of_lt_of_le (by exact_mod_cast h) (zpow_le_zpow_right₀ (by norm_num) hle)

theorem roundEven_nonneg (z : ℚ) (h : 0 ≤ z) : 0 ≤ roundEven z := by
  have := roundEven_mono 0 z h
  rwa [show roundEven 0 = 0 from by simpa using roundEven_intCast 0] at this

theorem flPos_nonneg (x : ℚ) (h : 0 ≤ x) : 0 ≤ flPos x := by
  unfold flPos
  exact mul_nonneg (by exact_mod_cast roundEven_nonneg _ (div_nonneg h (ulp_pos x).le))
    (ulp_pos x).le

theorem flPos_le_top (x : ℚ) : flPos x ≤ (2 : ℚ) ^ (binade x + 1) := by
  unfold flPos
  rw [ulp_eq, zpow_succ_split]
  have hu := two_zpow_pos (binade x - 52)
  have h1 : x / (2 : ℚ) ^ (binade x - 52) ≤ ((9007199254740992 : Int) : ℚ) := by
    rw [div_le_iff₀ hu]
    have := lt_binade_succ x
    rw [zpow_succ_split] at this
    push_cast
    linarith
  have h2 := roundEven_mono _ _ h1
  rw [roundEven_intCast] at h2
  have h3 : (roundEven (x / (2 : ℚ) ^ (binade x - 52)) : ℚ) ≤ 9007199254740992 := by
    exact_mod_cast h2
  rw [mul_comm]
  exact mul_le_mul_of_nonneg_left h3 hu.le

theorem flPos_ge_bottom (x : ℚ) (h : (2 : ℚ) ^ (binade x) ≤ x) :
    (2 : ℚ) ^ (binade x) ≤ flPos x := by
  unfold flPos
  rw [ulp_eq]
  have hu := two_zpow_pos (binade x - 52)
  have h1 : ((4503599627370496 : Int) : ℚ) ≤ x / (2 : ℚ) ^ (binade x - 52) := by
    rw [le_div_iff₀ hu]
    rw [zpow_split] at h
    push_cast
    linarith
  have h2 := roundEven_mono _ _ h1
  rw [roundEven_intCast] at h2
  have h3 : (4503599627370496 : ℚ) ≤ (roundEven (x / (2 : ℚ) ^ (binade x - 52)) : ℚ) := by
    exact_mod_cast h2
  rw [zpow_split, mul_comm]
  exact mul_le_mul_of_nonneg_right h3 hu.le

theorem flPos_zero : flPos 0 = 0 := by
  unfold flPos
  rw [zero_div, show roundEven 0 = 0 from by simpa using roundEven_intCast 0]
  simp

theorem flPos_mono (x y : ℚ) (hx : 0 ≤ x) (h : x ≤ y) : flPos x ≤ flPos y := by
  rcases eq_or_lt_of_le hx with h0 | hpos
  · subst h0
    rw [flPos_zero]
    exact flPos_nonneg y h
  · have hlog : Int.log 2 x ≤ Int.log 2 y := Int.log_mono_right hpos h
    have hb : binade x ≤ binade y := by unfold binade; omega
    rcases eq_or_lt_of_le hb with heq | hlt
    · unfold flPos
      rw [ulp_eq, ulp_eq, heq]
      have hu := two_zpow_pos (binade y - 52)
      have := roundEven_mono _ _ (div_le_div_of_nonneg_right h hu.le)
      exact mul_le_mul_of_nonneg_right (by exact_mod_cast this) hu.le
    · have hby : binade y = Int.log 2 y := by unfold binade at hlt ⊢; omega
      have hy : (2 : ℚ) ^ (binade y) ≤ y := by
        rw [hby]
        exact_mod_cast Int.zpow_log_le_self (R := ℚ) (b := 2) (by norm_num) (lt_of_lt_of_le hpos h)
      calc flPos x ≤ (2 : ℚ) ^ (binade x + 1) := flPos_le_top x
        _ ≤ (2 : ℚ) ^ (binade y) := zpow_le_zpow_right₀ (by norm_num) (by omega)
        _ ≤ flPos y := flPos_ge_bottom y hy

/-- Rounding to the nearest double is monotone. -/
theorem fl_mono (x y : ℚ) (h : x ≤ y) : fl x ≤ fl y := by
  unfold fl
  split_ifs with hx hy hy
  · exact neg_le_neg (flPos_mono _ _ (by linarith) (by linarith))
  · have := flPos_nonneg (-x) (by linarith)
    have := flPos_nonneg y (by linarith)
    linarith
  · exfalso; linarith
  · exact flPos_mono _ _ (by linarith) h

theorem flPos_error (x B : ℚ) (hx : 0 ≤ x) (hB : x ≤ B) (hmin : (2 : ℚ) ^ (-1022 : Int) ≤ B) :
    |flPos x - x| ≤ B / 9007199254740992 := by
  have hBpos : 0 < B := lt_of_lt_of_le (two_zpow_pos _) hmin
  rcases eq_or_lt_of_le hx with h0 | hpos
  · subst h0
    rw [flPos_zero]
    simpa using (div_pos hBpos (by norm_num : (0 : ℚ) < 9007199254740992)).le
  have hu := ulp_pos x
  have hr := roundEven_near (x / ulp x)
  have e1 : flPos x - x = ((roundEven (x / ulp x) : ℚ) - x / ulp x) * ulp x := by
    unfold flPos
    field_simp
  have hule : ulp x ≤ B / 4503599627370496 := by
    rw [ulp_eq, le_div_iff₀ (by norm_num), ← zpow_split]
    unfold binade
    rcases le_total (Int.log 2 x) (-1022) with hl | hl
    · rw [max_eq_right hl]; exact hmin
    · rw [max_eq_left hl]
      have := Int.zpow_log_le_self (R := ℚ) (b := 2) (by norm_num) hpos
      exact le_trans (by exact_mod_cast this) hB
  rw [e1, abs_mul, abs_of_pos hu]
  calc |(roundEven (x / ulp x) : ℚ) - x / ulp x| * ulp x ≤ 1 / 2 * ulp x :=
        mul_le_mul_of_nonneg_right hr hu.le
    _ ≤ 1 / 2 * (B / 4503599627370496) := mul_le_mul_of_nonneg_left hule (by norm_num)
    _ = B / 9007199254740992 := by ring

/-- The rounding error of `fl` is at most `2^-53` times any bound of the
argument that lies in the normal range. -/
theorem fl_error (x B : ℚ) (hB : |x| ≤ B) (hmin : (2 : ℚ) ^ (-1022 : Int) ≤ B) :
    |fl x - x| ≤ B / 9007199254740992 := by
  unfold fl
  split_ifs with hx
  · have := flPos_error (-x) B (by linarith) (by rw [abs_of_neg hx] at hB; exact hB) hmin
    rw [show -flPos (-x) - x = -(flPos (-x) - -x) from by ring, abs_neg]
    exact this
  · exact flPos_error x B (not_lt.1 hx) (by rw [abs_of_nonneg (not_lt.1 hx)] at hB; exact hB) hmin

theorem fl_zero : fl 0 = 0 := by
  unfold fl
  rw [if_neg (lt_irrefl 0), flPos_zero]

/-- Rounding to the nearest double commutes with the sign. -/
theorem fl_neg (x : ℚ) : fl (-x) = -fl x := by
  rcases lt_trichotomy x 0 with h | h | h
  · unfold fl
    rw [if_neg (by linarith : ¬ -x < 0), if_pos h, neg_neg]
  · subst h
    simp [fl_zero]
  · unfold fl
    rw [if_pos (by linarith : -x < 0), if_neg (by linarith : ¬ x < 0), neg_neg]

/-! ### Roundings the live metrics go through -/

/-- The literal `0.1` as a double. -/
theorem fl_tenth : fl (1 / 10) = 3602879701896397 / 36028797018963968 := by
  rw [fl_eq_of_near (1 / 10) (-4) 7205759403792794 (by norm_num) (by norm_num) (by norm_num)
    (by rw [abs_lt]; constructor <;> norm_num)]
  norm_num

/-- The number 1/2 is a double. -/
theorem fl_half : fl (1 / 2) = 1 / 2 := by
  rw [fl_eq_of_near (1 / 2) (-1) 4503599627370496 (by norm_num) (by norm_num) (by norm_num)
    (by rw [abs_lt]; constructor <;> norm_num)]
  norm_num

/-- Half of the double `0.1` is a double. -/
theorem fl_halfTenth : fl (3602879701896397 / 72057594037927936) = 3602879701896397 / 72057594037927936 := by
  rw [fl_eq_of_near (3602879701896397 / 72057594037927936) (-5) 7205759403792794 (by norm_num) (by norm_num) (by norm_num)
    (by rw [abs_lt]; constructor <;> norm_num)]
  norm_num

/-- The double nearest to `1 - 0.1 / 2`. -/
theorem fl_one_sub : fl (68454714336031539 / 72057594037927936) = 4278419646001971 / 4503599627370496 := by
  rw [fl_eq_of_near (68454714336031539 / 72057594037927936) (-1) 8556839292003942 (by norm_num) (by norm_num) (by norm_num)
    (by rw [abs_lt]; constructor <;> norm_num)]
  norm_num

/-- The double nearest to `1 + 0.1 / 2`. -/
theorem fl_one_add : fl (75660473739824333 / 72057594037927936) = 4728779608739021 / 4503599627370496 := by
  rw [fl_eq_of_near (75660473739824333 / 72057594037927936) (0) 4728779608739021 (by norm_num) (by norm_num) (by norm_num)
    (by rw [abs_lt]; constructor <;> norm_num)]
  norm_num

/-- The number 2000 is a double. -/
theorem fl_2000 : fl (2000) = 2000 := by
  rw [fl_eq_of_near (2000) (10) 8796093022208000 (by norm_num) (by norm_num) (by norm_num)
    (by rw [abs_lt]; constructor <;> norm_num)]
  norm_num

/-- The number 3000 is a double. -/
theorem fl_3000 : fl (3000) = 3000 := by
  rw [fl_eq_of_near (3000) (11) 6597069766656000 (by norm_num) (by norm_num) (by norm_num)
    (by rw [abs_lt]; constructor <;> norm_num)]
  norm_num

/-- The number 5000 is a double. -/
theorem fl_5000 : fl (5000) = 5000 := by
  rw [fl_eq_of_near (5000) (12) 5497558138880000 (by norm_num) (by norm_num) (by norm_num)
    (by rw [abs_lt]; constructor <;> norm_num)]
  norm_num

/-- The product of the base 42 and the factor at the draw 0. -/
theorem fl_low_v : fl (89846812566041391 / 2251799813685248) = 5615425785377587 / 140737488355328 := by
  rw [fl_eq_of_near (89846812566041391 / 2251799813685248) (5) 5615425785377587 (by norm_num) (by norm_num) (by norm_num)
    (by rw [abs_lt]; constructor <;> norm_num)]
  norm_num

/-- The difference `r - 0.5` at the draw 53/128. -/
theorem fl_k_a : fl ((-(11 / 128))) = (-(11 / 128)) := by
  rw [fl_neg, fl_eq_of_near (11 / 128) (-4) 6192449487634432 (by norm_num) (by norm_num) (by norm_num)
    (by rw [abs_lt]; constructor <;> norm_num)]
  norm_num

/-- The fluctuation at the draw 53/128. -/
theorem fl_k_b : fl ((-(39631676720860367 / 4611686018427387904))) = (-(2476979795053773 / 288230376151711744)) := by
  rw [fl_neg, fl_eq_of_near (39631676720860367 / 4611686018427387904) (-7) 4953959590107546 (by norm_num) (by norm_num) (by norm_num)
    (by rw [abs_lt]; constructor <;> norm_num)]
  norm_num

/-- The factor `1 + fluctuation` at the draw 53/128. -/
theorem fl_k_s : fl (285753396356657971 / 288230376151711744) = 4464896818072781 / 4503599627370496 := by
  rw [fl_eq_of_near (285753396356657971 / 288230376151711744) (-1) 8929793636145562 (by norm_num) (by norm_num) (by norm_num)
    (by rw [abs_lt]; constructor <;> norm_num)]
  norm_num

/-- The product of the base 1500 and the factor at the draw 53/128. -/
theorem fl_k_v : fl (1674336306777292875 / 1125899906842624) = 95175 / 64 := by
  rw [fl_eq_of_near (1674336306777292875 / 1125899906842624) (10) 6540376198348800 (by norm_num) (by norm_num) (by norm_num)
    (by rw [abs_lt]; constructor <;> norm_num)]
  norm_num

/-- The difference `r - 0.5` at the draw 57/128. -/
theorem fl_m_a : fl ((-(7 / 128))) = (-(7 / 128)) := by
  rw [fl_neg, fl_eq_of_near (7 / 128) (-5) 7881299347898368 (by norm_num) (by norm_num) (by norm_num)
    (by rw [abs_lt]; constructor <;> norm_num)]
  norm_num

/-- The fluctuation at the draw 57/128. -/
theorem fl_m_b : fl ((-(25220157913274779 / 4611686018427387904))) = (-(6305039478318695 / 1152921504606846976)) := by
  rw [fl_neg, fl_eq_of_near (25220157913274779 / 4611686018427387904) (-8) 6305039478318695 (by norm_num) (by norm_num) (by norm_num)
    (by rw [abs_lt]; constructor <;> norm_num)]
  norm_num

/-- The factor `1 + fluctuation` at the draw 57/128. -/
theorem fl_m_s : fl (1146616465128528281 / 1152921504606846976) = 8957941133816627 / 9007199254740992 := by
  rw [fl_eq_of_near (1146616465128528281 / 1152921504606846976) (-1) 8957941133816627 (by norm_num) (by norm_num) (by norm_num)
    (by rw [abs_lt]; constructor <;> norm_num)]
  norm_num

/-- The product of the base 42 and the factor at the draw 57/128. -/
theorem fl_m_v : fl (188116763810149167 / 4503599627370496) = 5878648869067161 / 140737488355328 := by
  rw [fl_eq_of_near (188116763810149167 / 4503599627370496) (5) 5878648869067161 (by norm_num) (by norm_num) (by norm_num)
    (by rw [abs_lt]; constructor <;> norm_num)]
  norm_num

/-- The difference `r - 0.5` at the draw 3/4. -/
theorem fl_h_a : fl (1 / 4) = 1 / 4 := by
  rw [fl_eq_of_near (1 / 4) (-2) 4503599627370496 (by norm_num) (by norm_num) (by norm_num)
    (by rw [abs_lt]; constructor <;> norm_num)]
  norm_num

/-- The fluctuation at the draw 3/4. -/
theorem fl_h_b : fl (3602879701896397 / 144115188075855872) = 3602879701896397 / 144115188075855872 := by
  rw [fl_eq_of_near (3602879701896397 / 144115188075855872) (-6) 7205759403792794 (by norm_num) (by norm_num) (by norm_num)
    (by rw [abs_lt]; constructor <;> norm_num)]
  norm_num

/-- The factor `1 + fluctuation` at the draw 3/4. -/
theorem fl_h_s : fl (147718067777752269 / 144115188075855872) = 2308094809027379 / 2251799813685248 := by
  rw [fl_eq_of_near (147718067777752269 / 144115188075855872) (0) 4616189618054758 (by norm_num) (by norm_num) (by norm_num)
    (by rw [abs_lt]; constructor <;> norm_num)]
  norm_num

/-- The product of the base 42 and the factor at the draw 3/4. -/
theorem fl_h_v : fl (48469990989574959 / 1125899906842624) = 3029374436848435 / 70368744177664 := by
  rw [fl_eq_of_near (48469990989574959 / 1125899906842624) (5) 6058748873696870 (by norm_num) (by norm_num) (by norm_num)
    (by rw [abs_lt]; constructor <;> norm_num)]
  norm_num

/-- The product `r * 3000` at the largest draw below 1. -/
theorem fl_top_product : fl (3377699720527871625 / 1125899906842624) = 6597069766655999 / 2199023255552 := by
  rw [fl_eq_of_near (3377699720527871625 / 1125899906842624) (11) 6597069766655999 (by norm_num) (by norm_num) (by norm_num)
    (by rw [abs_lt]; constructor <;> norm_num)]
  norm_num

/-- The sum `2000 + r * 3000` at the largest draw below 1, a tie. -/
theorem fl_top_period : fl (10995116277759999 / 2199023255552) = 5000 := by
  rw [fl_eq_of_tie (10995116277759999 / 2199023255552) (12) 5497558138879999 (by norm_num) (by norm_num) (by norm_num)
    (by norm_num) (by decide)]
  norm_num

/-! ## Live metrics -/

/-- The fluctuation `(r - 0.5) * 0.1` of a draw in [0, 1) is at most half the
double `0.1` in magnitude. -/
theorem fluctuation_bounds (r : ℚ) (h0 : 0 ≤ r) (h1 : r < 1) :
    -(3602879701896397 / 72057594037927936) ≤ dblMul (dblSub r (1 / 2)) (fl (1 / 10)) ∧
    dblMul (dblSub r (1 / 2)) (fl (1 / 10)) ≤ 3602879701896397 / 72057594037927936 := by
  have ha1 : -(1 / 2) ≤ dblSub r (1 / 2) := by
    have := fl_mono (-(1 / 2)) (r - 1 / 2) (by linarith)
    rwa [fl_neg, fl_half] at this
  have ha2 : dblSub r (1 / 2) ≤ 1 / 2 := by
    have := fl_mono (r - 1 / 2) (1 / 2) (by linarith)
    rwa [fl_half] at this
  rw [fl_tenth]
  constructor
  · have := fl_mono (-(3602879701896397 / 72057594037927936))
      (dblSub r (1 / 2) * (3602879701896397 / 36028797018963968)) (by linarith)
    rwa [fl_neg, fl_halfTenth] at this
  · have := fl_mono (dblSub r (1 / 2) * (3602879701896397 / 36028797018963968))
      (3602879701896397 / 72057594037927936) (by linarith)
    rwa [fl_halfTenth] at this

/-- The factor `1 + fluctuation` lies between the doubles nearest to 0.95 from
below and to 1.05 from above. -/
theorem factor_bounds (r : ℚ) (h0 : 0 ≤ r) (h1 : r < 1) :
    4278419646001971 / 4503599627370496 ≤ dblAdd 1 (dblMul (dblSub r (1 / 2)) (fl (1 / 10))) ∧
    dblAdd 1 (dblMul (dblSub r (1 / 2)) (fl (1 / 10))) ≤ 4728779608739021 / 4503599627370496 := by
  obtain ⟨hb1, hb2⟩ := fluctuation_bounds r h0 h1
  constructor
  · have := fl_mono (68454714336031539 / 72057594037927936)
      (1 + dblMul (dblSub r (1 / 2)) (fl (1 / 10))) (by linarith)
    rwa [fl_one_sub] at this
  · have := fl_mono (1 + dblMul (dblSub r (1 / 2)) (fl (1 / 10)))
      (75660473739824333 / 72057594037927936) (by linarith)
    rwa [fl_one_add] at this

/-- In double arithmetic the new value stays within 5% of the base up to
rounding. -/
theorem liveNewValue_near (base r : ℚ) (h0 : 0 ≤ r) (h1 : r < 1)
    (hbase : base = 0 ∨ (2 : ℚ) ^ (-1022 : Int) ≤ |base|) :
    |liveNewValue base r - base| ≤ |base| * (5 / 100 + 1 / 2 ^ 52) := by
  obtain ⟨hs1, hs2⟩ := factor_bounds r h0 h1
  unfold liveNewValue
  simp only []
  generalize dblAdd 1 (dblMul (dblSub r (1 / 2)) (fl (1 / 10))) = s at hs1 hs2
  rcases hbase with hz | hn
  · subst hz
    simp [dblMul, fl_zero]
  · have hs0 : 0 ≤ s := by linarith
    have hB : |base * s| ≤ |base| * (4728779608739021 / 4503599627370496) := by
      rw [abs_mul, abs_of_nonneg hs0]
      exact mul_le_mul_of_nonneg_left hs2 (abs_nonneg base)
    have hmin : (2 : ℚ) ^ (-1022 : Int) ≤ |base| * (4728779608739021 / 4503599627370496) := by
      have : |base| ≤ |base| * (4728779608739021 / 4503599627370496) := by
        have := abs_nonneg base
        nlinarith
      exact le_trans hn this
    have herr := fl_error (base * s) _ hB hmin
    have hdev : |base * s - base| ≤ |base| * (225179981368525 / 4503599627370496) := by
      rw [show base * s - base = base * (s - 1) from by ring, abs_mul]
      apply mul_le_mul_of_nonneg_left _ (abs_nonneg base)
      rw [abs_le]
      constructor <;> linarith
    have htri : |dblMul base s - base| ≤ |fl (base * s) - base * s| + |base * s - base| := by
      have := abs_add (fl (base * s) - base * s) (base * s - base)
      simpa [dblMul] using this
    have hb := abs_nonneg base
    have hfin : |base| * (4728779608739021 / 4503599627370496) / 9007199254740992
        + |base| * (225179981368525 / 4503599627370496) ≤ |base| * (5 / 100 + 1 / 2 ^ 52) := by
      have : (4728779608739021 / 4503599627370496 : ℚ) / 9007199254740992
          + 225179981368525 / 4503599627370496 ≤ 5 / 100 + 1 / 2 ^ 52 := by norm_num
      nlinarith
    linarith

theorem liveNewValue_42_0 : liveNewValue 42 0 = 5615425785377587 / 140737488355328 := by
  unfold liveNewValue dblMul dblAdd dblSub
  simp only []
  rw [show (0 : ℚ) - 1 / 2 = -(1 / 2) from by norm_num, fl_neg, fl_half, fl_tenth,
    show -(1 / 2 : ℚ) * (3602879701896397 / 36028797018963968)
      = -(3602879701896397 / 72057594037927936) from by norm_num,
    fl_neg, fl_halfTenth,
    show (1 : ℚ) + -(3602879701896397 / 72057594037927936)
      = 68454714336031539 / 72057594037927936 from by norm_num,
    fl_one_sub,
    show (42 : ℚ) * (4278419646001971 / 4503599627370496)
      = 89846812566041391 / 2251799813685248 from by norm_num,
    fl_low_v]

/-- Counterexample to C10: at base 42 and draw 0 the doubles give
newValue = 39.899999999999998578..., farther from 42 than 5% of 42 = 2.1. -/
theorem liveNewValue_exceeds_five_percent :
    |(42 : ℚ)| * (5 / 100) < |liveNewValue 42 0 - 42| := by
  rw [liveNewValue_42_0]
  norm_num [abs_of_neg, abs_of_pos]
/-- The new value of base 1500 at the draw 53/128 is 1487.109375. -/
theorem liveNewValue_1500 : liveNewValue 1500 (53 / 128) = 95175 / 64 := by
  unfold liveNewValue dblMul dblAdd dblSub
  simp only []
  rw [show (53 / 128 : ℚ) - 1 / 2 = (-(11 / 128)) from by norm_num, fl_k_a, fl_tenth,
    show (-(11 / 128) : ℚ) * (3602879701896397 / 36028797018963968) = (-(39631676720860367 / 4611686018427387904)) from by norm_num, fl_k_b,
    show (1 : ℚ) + (-(2476979795053773 / 288230376151711744)) = 285753396356657971 / 288230376151711744 from by norm_num, fl_k_s,
    show (1500 : ℚ) * (4464896818072781 / 4503599627370496) = 1674336306777292875 / 1125899906842624 from by norm_num, fl_k_v]

/-- The new value of base 42 at the draw 57/128 is 41.770312499999996... -/
theorem liveNewValue_42 : liveNewValue 42 (57 / 128) = 5878648869067161 / 140737488355328 := by
  unfold liveNewValue dblMul dblAdd dblSub
  simp only []
  rw [show (57 / 128 : ℚ) - 1 / 2 = (-(7 / 128)) from by norm_num, fl_m_a, fl_tenth,
    show (-(7 / 128) : ℚ) * (3602879701896397 / 36028797018963968) = (-(25220157913274779 / 4611686018427387904)) from by norm_num, fl_m_b,
    show (1 : ℚ) + (-(6305039478318695 / 1152921504606846976)) = 1146616465128528281 / 1152921504606846976 from by norm_num, fl_m_s,
    show (42 : ℚ) * (8957941133816627 / 9007199254740992) = 188116763810149167 / 4503599627370496 from by norm_num, fl_m_v]

/-- The new value of base 42 at the draw 3/4 is 43.049999999999997..., just below 43.05. -/
theorem liveNewValue_42_high : liveNewValue 42 (3 / 4) = 3029374436848435 / 70368744177664 := by
  unfold liveNewValue dblMul dblAdd dblSub
  simp only []
  rw [show (3 / 4 : ℚ) - 1 / 2 = 1 / 4 from by norm_num, fl_h_a, fl_tenth,
    show (1 / 4 : ℚ) * (3602879701896397 / 36028797018963968) = 3602879701896397 / 144115188075855872 from by norm_num, fl_h_b,
    show (1 : ℚ) + 3602879701896397 / 144115188075855872 = 147718067777752269 / 144115188075855872 from by norm_num, fl_h_s,
    show (42 : ℚ) * (2308094809027379 / 2251799813685248) = 48469990989574959 / 1125899906842624 from by norm_num, fl_h_v]

/-- At the largest draw below 1 the period rounds up to 5000. -/
theorem livePeriod_top : livePeriod (9007199254740991 / 9007199254740992) = 5000 := by
  unfold livePeriod dblAdd dblMul
  rw [show (9007199254740991 / 9007199254740992 : ℚ) * 3000 = 3377699720527871625 / 1125899906842624 from by norm_num, fl_top_product,
    show (2000 : ℚ) + 6597069766655999 / 2199023255552 = 10995116277759999 / 2199023255552 from by norm_num, fl_top_period]

theorem toString_digit_length (n : Nat) : (toString (n % 10)).length = 1 := by
  have h : n % 10 < 10 := Nat.mod_lt _ (by decide)
  generalize n % 10 = k at h
  interval_cases k <;> decide

theorem toFixed1_format (x : ℚ) :
    ∃ whole digit : String, toFixed1 x = whole ++ "." ++ digit ∧ digit.length = 1 :=
  ⟨_, _, rfl, toString_digit_length _⟩

theorem toFixed1_eq (x : ℚ) (n : Nat) (hx : 0 ≤ x) (h1 : (n : ℚ) ≤ x * 10 + 1 / 2)
    (h2 : x * 10 + 1 / 2 < n + 1) :
    toFixed1 x = toString (n / 10) ++ "." ++ toString (n % 10) := by
  have f : ⌊|x| * 10 + 1 / 2⌋ = (n : Int) := by
    rw [abs_of_nonneg hx, Int.floor_eq_iff]
    push_cast
    exact ⟨h1, h2⟩
  unfold toFixed1
  simp only [f, Int.toNat_ofNat, if_neg (not_lt.2 hx)]
  simp

theorem liveText_1500 : liveText exampleHost 1500 (53 / 128) = "1,487" := by
  have c : (1500 : ℚ) > 1000 := by norm_num
  have e : mathRound (95175 / 64) = 1487 := by
    unfold mathRound
    rw [Int.floor_eq_iff]
    constructor <;> norm_num
  unfold liveText
  simp only [c, if_true, liveNewValue_1500, e, exampleHost]
  decide

theorem liveText_42 : liveText exampleHost 42 (57 / 128) = "41.8" := by
  have c : ¬ (42 : ℚ) > 1000 := by norm_num
  unfold liveText
  simp only [c, if_false, liveNewValue_42]
  rw [toFixed1_eq _ 418 (by norm_num) (by norm_num) (by norm_num)]
  decide

/-- At base 42 and draw 3/4 the text is "43.0": the double lies just below
43.05. -/
theorem liveText_42_high : liveText exampleHost 42 (3 / 4) = "43.0" := by
  have c : ¬ (42 : ℚ) > 1000 := by norm_num
  unfold liveText
  simp only [c, if_false, liveNewValue_42_high]
  rw [toFixed1_eq _ 430 (by norm_num) (by norm_num) (by norm_num)]
  decide

/-- The period `2000 + r * 3000` of a draw in [0, 1) lies between 2000 and
5000. -/
theorem livePeriod_bounds (r : ℚ) (h0 : 0 ≤ r) (h1 : r < 1) :
    2000 ≤ livePeriod r ∧ livePeriod r ≤ 5000 := by
  have hp1 : 0 ≤ dblMul r 3000 := by
    have := fl_mono 0 (r * 3000) (by linarith)
    rwa [fl_zero] at this
  have hp2 : dblMul r 3000 ≤ 3000 := by
    have := fl_mono (r * 3000) 3000 (by linarith)
    rwa [fl_3000] at this
  constructor
  · have := fl_mono 2000 (2000 + dblMul r 3000) (by linarith)
    rwa [fl_2000] at this
  · have := fl_mono (2000 + dblMul r 3000) 5000 (by linarith)
    rwa [fl_5000] at this

/-- The loop body of `animateLiveMetrics` only appends: a registered interval
stays registered. -/
theorem animateLiveMetric_keeps (host : Host) (acc : World) (x : Nat × NumberElement)
    (t : Timer) (ht : t ∈ acc.timers) (hh : t.handle ∈ acc.app.animationIntervals) :
    t ∈ (animateLiveMetric host acc x).timers ∧
      t.handle ∈ (animateLiveMetric host acc x).app.animationIntervals := by
  unfold animateLiveMetric
  split
  · exact ⟨ht, hh⟩
  · simp [mathRandom, setTimer, ht, hh]

/-- The loop body of `animateLiveMetrics` registers an interval for an element
with a numeric base. -/
theorem animateLiveMetric_registers (host : Host)
    (hhost : ∀ k, 0 ≤ host.random k ∧ host.random k < 1) (acc : World) (i : Nat)
    (e : NumberElement) (base : ℚ) (hparse : parseFloatAttr host e.dataValue = some base) :
    ∃ t ∈ (animateLiveMetric host acc (i, e)).timers,
      t.callback = .liveMetric i base ∧ t.repeating = true ∧ 2000 ≤ t.delay ∧ t.delay ≤ 5000 ∧
      t.handle ∈ (animateLiveMetric host acc (i, e)).app.animationIntervals := by
  have hp := livePeriod_bounds _ (hhost acc.randomCalls).1 (hhost acc.randomCalls).2
  refine ⟨⟨⟨acc.nextHandle⟩, true, livePeriod (host.random acc.randomCalls), .liveMetric i base⟩,
    ?_, rfl, rfl, hp.1, hp.2, ?_⟩
  · simp [animateLiveMetric, hparse, mathRandom, setTimer]
  · simp [animateLiveMetric, hparse, mathRandom, setTimer]

/-- The function `animateLiveMetrics` registers an interval for every queried
element with a numeric base. -/
theorem animateLiveMetrics_registers (host : Host)
    (hhost : ∀ k, 0 ≤ host.random k ∧ host.random k < 1) (w : World) (i : Nat)
    (e : NumberElement) (base : ℚ) (hi : w.dom.liveMetrics[i]? = some e)
    (hparse : parseFloatAttr host e.dataValue = some base) :
    ∃ t ∈ (animateLiveMetrics host w).timers,
      t.callback = .liveMetric i base ∧ t.repeating = true ∧ 2000 ≤ t.delay ∧ t.delay ≤ 5000 ∧
      t.handle ∈ (animateLiveMetrics host w).app.animationIntervals := by
  have hmem : (i, e) ∈ w.dom.liveMetrics.enum := List.mk_mem_enum_iff_getElem?.2 hi
  obtain ⟨l1, l2, hl⟩ := List.append_of_mem hmem
  unfold animateLiveMetrics
  rw [hl, List.foldl_append, List.foldl_cons]
  refine foldl_invariant (fun v => ∃ t ∈ v.timers,
      t.callback = .liveMetric i base ∧ t.repeating = true ∧ 2000 ≤ t.delay ∧ t.delay ≤ 5000 ∧
      t.handle ∈ v.app.animationIntervals) (animateLiveMetric host) ?_ l2 _
    (animateLiveMetric_registers host hhost _ i e base hparse)
  rintro acc x ⟨t, ht, h1, h2, h3, h4, h5⟩
  obtain ⟨k1, k2⟩ := animateLiveMetric_keeps host acc x t ht h5
  exact ⟨t, k1, h1, h2, h3, h4, k2⟩

/-- C10, amended: for every base that is 0 or of magnitude between 2^-1022 and
2^1023 (the normal doubles, short of overflow) and every draw r in [0, 1), a
live-metric tick computes newValue = base * (1 + (r - 0.5) * 0.1) in double
arithmetic, within |base| * (0.05 + 2^-52) of base, that is 5% up to
rounding; it writes `Math.round(newValue)` through the host's
`toLocaleString` exactly when base > 1000 and otherwise, also at base = 1000,
`newValue.toFixed(1)`; on an en-US host base 1500 can render "1,487" and
base 42 "41.8". The interval is registered with the period 2000 + r * 3000,
which lies in [2000, 5000] (5000 is reached), and its handle is appended to
`AppState.animationIntervals`, by the loop body and so by `animateLiveMetrics`
for every queried element with a numeric base. -/
theorem liveMetric_tick (host : Host) (hhost : ∀ k, 0 ≤ host.random k ∧ host.random k < 1)
    (w : World) (i : Nat) (e : NumberElement) (base : ℚ)
    (hparse : parseFloatAttr host e.dataValue = some base)
    (hbase : base = 0 ∨ ((2 : ℚ) ^ (-1022 : Int) ≤ |base| ∧ |base| ≤ (2 : ℚ) ^ (1023 : Int)))
    (r : ℚ) (h0 : 0 ≤ r) (h1 : r < 1) :
    liveNewValue base r = fl (base * fl (1 + fl (fl (r - 1 / 2) * fl (1 / 10)))) ∧
    |liveNewValue base r - base| ≤ |base| * (5 / 100 + 1 / 2 ^ 52) ∧
    (1000 < base →
      liveText host base r = host.toLocaleString (mathRound (liveNewValue base r))) ∧
    (base ≤ 1000 → liveText host base r = toFixed1 (liveNewValue base r) ∧
      ∃ whole digit : String, liveText host base r = whole ++ "." ++ digit ∧
        digit.length = 1) ∧
    liveText host 1000 r = toFixed1 (liveNewValue 1000 r) ∧
    liveText exampleHost 1500 (53 / 128) = "1,487" ∧
    liveText exampleHost 42 (57 / 128) = "41.8" ∧
    (liveMetricTick host i base w).dom.liveMetrics[i]? =
      (w.dom.liveMetrics[i]?).map (fun m =>
        { m with textContent := liveText host base (host.random w.randomCalls) }) ∧
    (2000 ≤ livePeriod r ∧ livePeriod r ≤ 5000) ∧
    livePeriod (9007199254740991 / 9007199254740992) = 5000 ∧
    (∃ period, 2000 ≤ period ∧ period ≤ 5000 ∧
      (animateLiveMetric host w (i, e)).timers =
        w.timers ++ [⟨⟨w.nextHandle⟩, true, period, .liveMetric i base⟩] ∧
      (animateLiveMetric host w (i, e)).app.animationIntervals =
        w.app.animationIntervals ++ [⟨w.nextHandle⟩]) ∧
    (w.dom.liveMetrics[i]? = some e →
      ∃ t ∈ (animateLiveMetrics host w).timers,
        t.callback = .liveMetric i base ∧ t.repeating = true ∧
        2000 ≤ t.delay ∧ t.delay ≤ 5000 ∧
        t.handle ∈ (animateLiveMetrics host w).app.animationIntervals) := by
  have hbase' : base = 0 ∨ (2 : ℚ) ^ (-1022 : Int) ≤ |base| := by
    rcases hbase with h | h
    · exact Or.inl h
    · exact Or.inr h.1
  refine ⟨rfl, liveNewValue_near base r h0 h1 hbase', ?_, ?_, ?_, liveText_1500, liveText_42,
    ?_, livePeriod_bounds r h0 h1, livePeriod_top, ?_,
    fun hi => animateLiveMetrics_registers host hhost w i e base hi hparse⟩
  · intro hb
    simp [liveText, hb]
  · intro hb
    have hb' : ¬ base > 1000 := not_lt.2 hb
    have e1 : liveText host base r = toFixed1 (liveNewValue base r) := by
      simp [liveText, hb']
    refine ⟨e1, ?_⟩
    rw [e1]
    exact toFixed1_format _
  · simp [liveText]
  · simp [liveMetricTick, mathRandom, getElem?_setText]
  · have hp := livePeriod_bounds _ (hhost w.randomCalls).1 (hhost w.randomCalls).2
    refine ⟨livePeriod (host.random w.randomCalls), hp.1, hp.2, ?_, ?_⟩
    · simp [animateLiveMetric, hparse, mathRandom, setTimer]
    · simp [animateLiveMetric, hparse, mathRandom, setTimer]

theorem exampleHost_random (k : Nat) : 0 ≤ exampleHost.random k ∧ exampleHost.random k < 1 := by
  simp only [exampleHost]
  split_ifs <;> norm_num

theorem exampleHost_parse_1500 : parseFloatAttr exampleHost (some "1500") = some 1500 := by
  simp [parseFloatAttr, exampleHost, parseDigits]

/-- Witness of C10: the metric of base 1500 on the example page, with the draw
53/128: the new value 1487.109375 renders as "1,487". -/
theorem liveMetric_tick_witness :
    liveNewValue 1500 (53 / 128)
      = fl (1500 * fl (1 + fl (fl (53 / 128 - 1 / 2) * fl (1 / 10)))) ∧
    |liveNewValue 1500 (53 / 128) - 1500| ≤ |(1500 : ℚ)| * (5 / 100 + 1 / 2 ^ 52) ∧
    liveText exampleHost 1500 (53 / 128) = "1,487" ∧
    liveText exampleHost 42 (57 / 128) = "41.8" ∧
    (2000 ≤ livePeriod (53 / 128) ∧ livePeriod (53 / 128) ≤ 5000) ∧
    ∃ period, 2000 ≤ period ∧ period ≤ 5000 ∧
      (animateLiveMetric exampleHost metricsWorld (0, ⟨some "1500", "1,500"⟩)).timers =
        metricsWorld.timers ++ [⟨⟨metricsWorld.nextHandle⟩, true, period, .liveMetric 0 1500⟩] ∧
      (animateLiveMetric exampleHost metricsWorld
          (0, ⟨some "1500", "1,500"⟩)).app.animationIntervals =
        metricsWorld.app.animationIntervals ++ [⟨metricsWorld.nextHandle⟩] ∧
      ∃ t ∈ (animateLiveMetrics exampleHost metricsWorld).timers,
        t.callback = .liveMetric 0 1500 ∧ t.repeating = true ∧
        2000 ≤ t.delay ∧ t.delay ≤ 5000 ∧
        t.handle ∈ (animateLiveMetrics exampleHost metricsWorld).app.animationIntervals := by
  have hb : (2 : ℚ) ^ (-1022 : Int) ≤ |(1500 : ℚ)| ∧ |(1500 : ℚ)| ≤ (2 : ℚ) ^ (1023 : Int) := by
    rw [abs_of_pos (by norm_num : (0 : ℚ) < 1500)]
    constructor
    · exact le_trans (zpow_le_one_of_nonpos₀ (by norm_num) (by norm_num)) (by norm_num)
    · norm_num
  have h := liveMetric_tick exampleHost exampleHost_random metricsWorld 0
    ⟨some "1500", "1,500"⟩ 1500 exampleHost_parse_1500 (Or.inr hb) (53 / 128) (by norm_num)
    (by norm_num)
  obtain ⟨period, p1, p2, p3, p4⟩ := h.2.2.2.2.2.2.2.2.2.2.1
  exact ⟨h.1, h.2.1, h.2.2.2.2.2.1, h.2.2.2.2.2.2.1, h.2.2.2.2.2.2.2.2.1,
    period, p1, p2, p3, p4, h.2.2.2.2.2.2.2.2.2.2.2 (by decide)⟩

/-! ## Defects -/

/-- The function `startTrafficLightAnimation` never stores a handle: it leaves
`AppState.trafficLightInterval` as it found it. -/
theorem startTrafficLightAnimation_keeps_handle (w : World) :
    (startTrafficLightAnimation w).world.app.trafficLightInterval
      = w.app.trafficLightInterval := by
  unfold startTrafficLightAnimation cycleTrafficLights
  cases h : w.app.trafficLightInterval <;> simp only [] <;> split <;>
    simp [Outcome.world, setTimer, clearInterval, h]

/-- C9, evaluated: after two calls of `startTrafficLightAnimation` on the
dashboard page no `clearInterval` was issued, the stored handle is still null,
and two phase-change timers are pending, one per cycle, each of which fires. -/
theorem startTrafficLightAnimation_twice_two_cycles :
    startedTwice.cleared = [] ∧
    startedTwice.app.trafficLightInterval = none ∧
    startedTwice.timers.map (fun t => (t.handle, t.callback))
      = [(⟨0⟩, .advanceLight 0), (⟨1⟩, .advanceLight 1)] ∧
    ((fireCycle exampleHost 0 startedTwice).bind (fireCycle exampleHost 1)).map
      (fun w => (w.currentLight 0, w.currentLight 1)) = some (1, 1) := by
  decide

/-- C6, evaluated: after start-up, a switch to the analysis tab and `cleanup`,
the two live-metric intervals are cancelled but the traffic-light timer is
still pending, and firing it changes the phase. -/
theorem cleanup_leaves_cycle_timer :
    tornDownSession.map (fun w => w.cleared) = some [⟨3⟩, ⟨4⟩] ∧
    tornDownSession.map (fun w => w.timers.map (fun t => (t.handle, t.callback)))
      = some [(⟨0⟩, .advanceLight 0)] ∧
    (tornDownSession.bind (fireCycle exampleHost 0)).map (fun w => w.currentLight 0)
      = some 1 := by
  decide

/-- The loop body of `animateImprovementNumbers` queues an animation for every
element, whatever `parseFloat` made of its `data-value`. -/
theorem animateImprovementNumber_frames (host : Host) (w : World) (i : Nat)
    (e : NumberElement) :
    (animateImprovementNumber host w (i, e)).frames = w.frames ++
      [⟨.improvement, i, some 0, jsSub (parseFloatAttr host e.dataValue) (some 0), 1500, w.now,
        .percentage⟩] := by
  simp [animateImprovementNumber, animateCounter, requestAnimationFrame]

/-- The loop body of `animateStatNumbers` queues an animation for every element,
whatever `parseFloat` made of its `data-value`. -/
theorem animateStatNumber_frames (host : Host) (w : World) (i : Nat) (e : NumberElement) :
    (animateStatNumber host w (i, e)).frames = w.frames ++
      [⟨.stat, i, some 0, jsSub (parseFloatAttr host e.dataValue) (some 0), 2000, w.now,
        statFormatter (includesChar e.textContent '#') (includesChar e.textContent '%')⟩] := by
  simp [animateStatNumber, animateCounter, requestAnimationFrame]

/-- The loop body of `animateTrainingNumbers` skips an element whose
`data-value` is missing or not a number. -/
theorem animateTrainingNumber_skips (host : Host) (w : World) (i : Nat) (e : NumberElement)
    (h : parseFloatAttr host e.dataValue = none) :
    animateTrainingNumber host w (i, e) = w := by
  simp [animateTrainingNumber, h, jsIsNaN]

theorem animationFrame_single (t : ℚ) (w : World) (task : CounterTask)
    (h : w.frames = [task]) :
    ((animationFrame t w).dom.counters task.list)[task.element]? =
      ((w.dom.counters task.list)[task.element]?).map (fun e =>
        { e with textContent := Formatter.apply task.formatter (currentValue task.start task.range task.duration (t - task.startTime)) }) := by
  unfold animationFrame
  rw [h, List.foldl_cons, List.foldl_nil, updateCounter_text]

/-- C8, evaluated: on elements without `data-value`, `animateStatNumbers` and
`animateImprovementNumbers` queue an animation towards `NaN`, whose first frame
writes "#NaN" and "NaN%", while `animateTrainingNumbers` queues none and
leaves the text. -/
theorem animators_on_missing_value :
    (animateStatNumbers exampleHost missingValueWorld).frames
      = [⟨.stat, 0, some 0, none, 2000, 0, .ranked⟩] ∧
    ((animationFrame 16 (animateStatNumbers exampleHost missingValueWorld)).dom.statNumbers[0]?).map
      (fun e => e.textContent) = some "#NaN" ∧
    (animateImprovementNumbers exampleHost missingValueWorld).frames
      = [⟨.improvement, 0, some 0, none, 1500, 0, .percentage⟩] ∧
    ((animationFrame 16
      (animateImprovementNumbers exampleHost missingValueWorld)).dom.improvementNumbers[0]?).map
      (fun e => e.textContent) = some "NaN%" ∧
    (animateTrainingNumbers exampleHost missingValueWorld).frames = [] ∧
    ((animationFrame 16
      (animateTrainingNumbers exampleHost missingValueWorld)).dom.trainingNumbers[0]?).map
      (fun e => e.textContent) = some "0" := by
  have h1 : (animateStatNumbers exampleHost missingValueWorld).frames
      = [⟨.stat, 0, some 0, none, 2000, 0, .ranked⟩] := by decide
  have h2 : (animateImprovementNumbers exampleHost missingValueWorld).frames
      = [⟨.improvement, 0, some 0, none, 1500, 0, .percentage⟩] := by decide
  have h3 : (animateTrainingNumbers exampleHost missingValueWorld).frames = [] := by decide
  refine ⟨h1, ?_, h2, ?_, h3, ?_⟩
  · have h := animationFrame_single 16 _ _ h1
    simp only [Dom.counters] at h
    rw [h]
    decide
  · have h := animationFrame_single 16 _ _ h2
    simp only [Dom.counters] at h
    rw [h]
    decide
  · decide

/-! ## The timer queue stays consistent -/

theorem wellFormed_of_sub (w v : World) (hw : w.wellFormed = true)
    (ht : ∀ t ∈ v.timers, t ∈ w.timers) (hn : w.nextHandle ≤ v.nextHandle)
    (hc : w.cyclers.length ≤ v.cyclers.length) : v.wellFormed = true := by
  rw [wellFormed_iff] at hw ⊢
  exact ⟨fun t h => lt_of_lt_of_le (hw.1 t (ht t h)) hn,
    fun t h c e => lt_of_lt_of_le (hw.2 t (ht t h) c e) hc⟩

theorem wellFormed_setTimer (repeating : Bool) (delay : ℚ) (cb : Callback) (w : World)
    (hw : w.wellFormed = true) (hcb : ∀ c, cb = .advanceLight c → c < w.cyclers.length) :
    (setTimer repeating delay cb w).1.wellFormed = true := by
  rw [wellFormed_iff] at hw ⊢
  simp only [setTimer, List.mem_append, List.mem_singleton]
  refine ⟨?_, ?_⟩
  · rintro t (h | h)
    · exact Nat.lt_succ_of_lt (hw.1 t h)
    · subst h; exact Nat.lt_succ_self _
  · rintro t (h | h) c e
    · exact hw.2 t h c e
    · subst h; exact hcb c e

theorem wellFormed_requestAnimationFrame (task : CounterTask) (w : World)
    (hw : w.wellFormed = true) : (requestAnimationFrame task w).wellFormed = true :=
  wellFormed_of_sub w _ hw (fun _ h => h) le_rfl le_rfl

theorem wellFormed_animateCounter (l : CounterList) (i : Nat) (s e : JSNum) (d : ℚ)
    (f : Formatter) (w : World) (hw : w.wellFormed = true) :
    (animateCounter l i s e d f w).wellFormed = true :=
  wellFormed_requestAnimationFrame _ w hw

theorem wellFormed_animateStatNumbers (host : Host) (w : World) (hw : w.wellFormed = true) :
    (animateStatNumbers host w).wellFormed = true :=
  foldl_invariant (fun v => v.wellFormed = true) _
    (fun acc _ h => wellFormed_animateCounter _ _ _ _ _ _ acc h) _ w hw

theorem wellFormed_animateImprovementNumbers (host : Host) (w : World)
    (hw : w.wellFormed = true) : (animateImprovementNumbers host w).wellFormed = true :=
  foldl_invariant (fun v => v.wellFormed = true) _
    (fun acc _ h => wellFormed_animateCounter _ _ _ _ _ _ acc h) _ w hw

theorem wellFormed_animateTrainingNumbers (host : Host) (w : World)
    (hw : w.wellFormed = true) : (animateTrainingNumbers host w).wellFormed = true := by
  refine foldl_invariant (fun v => v.wellFormed = true) _ (fun acc x h => ?_) _ w hw
  unfold animateTrainingNumber
  simp only []
  split
  · exact wellFormed_animateCounter _ _ _ _ _ _ acc h
  · exact h

theorem wellFormed_animateLiveMetrics (host : Host) (w : World) (hw : w.wellFormed = true) :
    (animateLiveMetrics host w).wellFormed = true := by
  refine foldl_invariant (fun v => v.wellFormed = true) _ (fun acc x h => ?_) _ w hw
  unfold animateLiveMetric
  split
  · exact h
  · rename_i baseValue _
    have h1 : ({ acc with randomCalls := acc.randomCalls + 1 } : World).wellFormed = true :=
      wellFormed_of_sub acc _ h (fun _ h => h) le_rfl le_rfl
    have h2 := wellFormed_setTimer true (livePeriod (host.random acc.randomCalls))
      (.liveMetric x.1 baseValue) _ h1 (by intro c e; cases e)
    exact wellFormed_of_sub _ _ h2 (fun _ h => h) le_rfl le_rfl

theorem wellFormed_triggerTabAnimations (host : Host) (tabId : Option String) (w : World)
    (hw : w.wellFormed = true) : (triggerTabAnimations host tabId w).wellFormed = true := by
  unfold triggerTabAnimations
  split_ifs
  · exact wellFormed_animateImprovementNumbers host w hw
  · exact wellFormed_animateTrainingNumbers host w hw
  · exact wellFormed_animateLiveMetrics host w hw
  · exact hw

theorem wellFormed_showTab (tabId : Option String) (w : World) (hw : w.wellFormed = true) :
    (showTab tabId w).wellFormed = true := by
  unfold showTab
  exact wellFormed_setTimer false 100 (.triggerTab tabId) _
    (wellFormed_of_sub w _ hw (fun _ h => h) le_rfl le_rfl) (by intro c e; cases e)

theorem wellFormed_clearInterval (h : Handle) (w : World) (hw : w.wellFormed = true) :
    (clearInterval h w).wellFormed = true :=
  wellFormed_of_sub w _ hw (fun t ht => by
    simp only [clearInterval, List.mem_filter] at ht
    exact ht.1) le_rfl le_rfl

theorem wellFormed_cycleTrafficLights (cycler : Nat) (w : World) (hw : w.wellFormed = true)
    (hc : cycler < w.cyclers.length) : (cycleTrafficLights cycler w).world.wellFormed = true := by
  unfold cycleTrafficLights
  simp only []
  split
  · exact wellFormed_setTimer false _ (.advanceLight cycler) _
      (wellFormed_of_sub w _ hw (fun _ h => h) le_rfl le_rfl)
      (by intro c e; cases e; exact hc)
  · exact wellFormed_of_sub w _ hw (fun _ h => h) le_rfl le_rfl

theorem wellFormed_startTrafficLightAnimation (w : World) (hw : w.wellFormed = true) :
    (startTrafficLightAnimation w).world.wellFormed = true := by
  unfold startTrafficLightAnimation
  cases h : w.app.trafficLightInterval with
  | none =>
    exact wellFormed_cycleTrafficLights _ _
      (wellFormed_of_sub w _ hw (fun _ h => h) le_rfl (by simp)) (by simp)
  | some x =>
    exact wellFormed_cycleTrafficLights _ _
      (wellFormed_of_sub w _ hw (fun t ht => by
        simp only [clearInterval, List.mem_filter] at ht
        exact ht.1) le_rfl (by simp [clearInterval])) (by simp)

theorem wellFormed_initializeApp (host : Host) (w : World) (hw : w.wellFormed = true) :
    (initializeApp host w).world.wellFormed = true := by
  unfold initializeApp
  split
  · exact hw
  · have h1 := wellFormed_startTrafficLightAnimation _ (wellFormed_animateStatNumbers host w hw)
    unfold startAnimations
    split
    · rename_i w1 heq
      rw [heq] at h1
      exact h1
    · rename_i w1 heq
      rw [heq] at h1
      exact wellFormed_of_sub _ _ (wellFormed_showTab (some "overview") w1 h1)
        (fun _ h => h) le_rfl le_rfl

theorem wellFormed_fireTimer (host : Host) (h : Handle) (w : World) (o : Outcome)
    (hw : w.wellFormed = true) (ho : fireTimer host h w = some o) :
    o.world.wellFormed = true := by
  unfold fireTimer at ho
  split at ho
  · cases ho
  · rename_i t hfind
    simp only [Option.some.injEq] at ho
    subst ho
    have hmem : t ∈ w.timers := List.mem_of_find?_eq_some hfind
    have hw1 : (if t.repeating then w
        else { w with timers := w.timers.filter (fun u => u.handle != h) }).wellFormed = true := by
      split
      · exact hw
      · exact wellFormed_of_sub w _ hw (fun u hu => by
          simp only [List.mem_filter] at hu
          exact hu.1) le_rfl le_rfl
    have hlen : (if t.repeating then w
        else { w with timers := w.timers.filter (fun u => u.handle != h) }).cyclers
          = w.cyclers := by
      split <;> rfl
    generalize (if t.repeating then w
        else { w with timers := w.timers.filter (fun u => u.handle != h) }) = w1 at hw1 hlen
    cases hcb : t.callback with
    | triggerTab tabId => exact wellFormed_triggerTabAnimations host tabId w1 hw1
    | liveMetric element baseValue =>
      exact wellFormed_of_sub w1 _ hw1 (fun _ h => h) le_rfl le_rfl
    | advanceLight cycler =>
      have hc : cycler < w.cyclers.length := ((wellFormed_iff w).1 hw).2 t hmem cycler hcb
      simp only [runCallback, advanceLight]
      exact wellFormed_cycleTrafficLights cycler _
        (wellFormed_of_sub w1 _ hw1 (fun _ h => h) le_rfl (by simp))
        (by simp [hlen, hc])

theorem wellFormed_animationFrame (t : ℚ) (w : World) (hw : w.wellFormed = true) :
    (animationFrame t w).wellFormed = true := by
  unfold animationFrame
  refine foldl_invariant (fun v => v.wellFormed = true) _ (fun acc task h => ?_) _ _
    (wellFormed_of_sub w _ hw (fun _ h => h) le_rfl le_rfl)
  unfold updateCounter
  simp only []
  split
  · exact wellFormed_of_sub acc _ h (fun _ h => h) le_rfl le_rfl
  · exact wellFormed_of_sub acc _ h (fun _ h => h) le_rfl le_rfl

theorem wellFormed_cleanup (w : World) (hw : w.wellFormed = true) :
    (cleanup w).wellFormed = true := by
  rw [cleanup_eq]
  exact wellFormed_of_sub w _ hw (fun t ht => by
    simp only [List.mem_filter] at ht
    exact ht.1.1) le_rfl le_rfl

/-- Every world of a session has a consistent timer queue. -/
theorem reachable_wellFormed (host : Host) (d : Dom) (w : World) (h : Reachable host d w) :
    w.wellFormed = true := by
  induction h with
  | loaded => exact wellFormed_initial d
  | init _ ih => exact wellFormed_initializeApp host _ ih
  | tab tabId _ ih => exact wellFormed_showTab tabId _ ih
  | timer h o _ ho ih => exact wellFormed_fireTimer host h _ o ih ho
  | frame t _ ih => exact wellFormed_animationFrame t _ ih
  | teardown _ ih => exact wellFormed_cleanup _ ih
  | restart _ ih => exact wellFormed_startTrafficLightAnimation _ ih

/-! ## The traffic-light handle is never stored -/

theorem noHandle_animateStatNumbers (host : Host) (w : World)
    (hw : w.app.trafficLightInterval = none) :
    (animateStatNumbers host w).app.trafficLightInterval = none :=
  foldl_invariant (fun v => v.app.trafficLightInterval = none) (animateStatNumber host)
    (fun _ _ h => h) _ w hw

theorem noHandle_animateImprovementNumbers (host : Host) (w : World)
    (hw : w.app.trafficLightInterval = none) :
    (animateImprovementNumbers host w).app.trafficLightInterval = none :=
  foldl_invariant (fun v => v.app.trafficLightInterval = none) (animateImprovementNumber host)
    (fun _ _ h => h) _ w hw

theorem noHandle_animateTrainingNumbers (host : Host) (w : World)
    (hw : w.app.trafficLightInterval = none) :
    (animateTrainingNumbers host w).app.trafficLightInterval = none := by
  refine foldl_invariant (fun v => v.app.trafficLightInterval = none) _ (fun acc x h => ?_) _ w hw
  unfold animateTrainingNumber
  simp only []
  split
  · exact h
  · exact h

theorem noHandle_animateLiveMetrics (host : Host) (w : World)
    (hw : w.app.trafficLightInterval = none) :
    (animateLiveMetrics host w).app.trafficLightInterval = none := by
  refine foldl_invariant (fun v => v.app.trafficLightInterval = none) _ (fun acc x h => ?_) _ w hw
  unfold animateLiveMetric
  split
  · exact h
  · exact h

theorem noHandle_triggerTabAnimations (host : Host) (tabId : Option String) (w : World)
    (hw : w.app.trafficLightInterval = none) :
    (triggerTabAnimations host tabId w).app.trafficLightInterval = none := by
  unfold triggerTabAnimations
  split_ifs
  · exact noHandle_animateImprovementNumbers host w hw
  · exact noHandle_animateTrainingNumbers host w hw
  · exact noHandle_animateLiveMetrics host w hw
  · exact hw

theorem noHandle_cycleTrafficLights (cycler : Nat) (w : World)
    (hw : w.app.trafficLightInterval = none) :
    (cycleTrafficLights cycler w).world.app.trafficLightInterval = none := by
  unfold cycleTrafficLights
  simp only []
  split
  · exact hw
  · exact hw

theorem noHandle_initializeApp (host : Host) (w : World)
    (hw : w.app.trafficLightInterval = none) :
    (initializeApp host w).world.app.trafficLightInterval = none := by
  have h1 : (startAnimations host w).world.app.trafficLightInterval = none := by
    unfold startAnimations
    rw [startTrafficLightAnimation_keeps_handle]
    exact noHandle_animateStatNumbers host w hw
  unfold initializeApp
  split
  · exact hw
  · split
    · rename_i w1 heq
      rw [heq] at h1
      exact h1
    · rename_i w1 heq
      rw [heq] at h1
      exact h1

theorem noHandle_fireTimer (host : Host) (h : Handle) (w : World) (o : Outcome)
    (hw : w.app.trafficLightInterval = none) (ho : fireTimer host h w = some o) :
    o.world.app.trafficLightInterval = none := by
  unfold fireTimer at ho
  split at ho
  · cases ho
  · rename_i t hfind
    simp only [Option.some.injEq] at ho
    subst ho
    have hw1 : (if t.repeating then w
        else { w with timers := w.timers.filter (fun u => u.handle != h) }
          ).app.trafficLightInterval = none := by
      split
      · exact hw
      · exact hw
    generalize (if t.repeating then w
        else { w with timers := w.timers.filter (fun u => u.handle != h) }) = w1 at hw1
    cases hcb : t.callback with
    | triggerTab tabId => exact noHandle_triggerTabAnimations host tabId w1 hw1
    | liveMetric element baseValue => exact hw1
    | advanceLight cycler => exact noHandle_cycleTrafficLights cycler _ hw1

theorem noHandle_animationFrame (t : ℚ) (w : World) (hw : w.app.trafficLightInterval = none) :
    (animationFrame t w).app.trafficLightInterval = none := by
  unfold animationFrame
  refine foldl_invariant (fun v => v.app.trafficLightInterval = none) _ (fun acc task h => ?_) _ _
    hw
  unfold updateCounter
  simp only []
  split
  · exact h
  · exact h

/-- No entry point and no event ever stores a traffic-light handle: in every
world of a session `AppState.trafficLightInterval` is null, so neither guard
on it ever calls `clearInterval`. -/
theorem reachable_trafficLightInterval (host : Host) (d : Dom) (w : World)
    (h : Reachable host d w) : w.app.trafficLightInterval = none := by
  induction h with
  | loaded => rfl
  | init _ ih => exact noHandle_initializeApp host _ ih
  | tab tabId _ ih => exact ih
  | timer h o _ ho ih => exact noHandle_fireTimer host h _ o ih ho
  | frame t _ ih => exact noHandle_animationFrame t _ ih
  | teardown _ ih => rw [cleanup_eq]
  | restart _ ih =>
    rw [startTrafficLightAnimation_keeps_handle]
    exact ih

end Blink
